import Mathlib

/-!
Verification of the RAGRace execution core (orchestrator, provider executor,
result aggregation) against its natural-language specification.

The Python source is shallowly embedded: Python dicts become association
lists preserving insertion order, floats that may be NaN become the `Score`
type, exceptions become `Except` values, and the external collaborators
(provider adapters, the Ragas scoring service, the thread pool dispatch)
become explicit oracles (`Behavior`, dispatch maps).  Semaphore operations
and external calls are recorded in an event trace.
-/

namespace RAGRace

/-- A Python float metric value: either NaN or an actual numeric value.
The Python NaN test `score != score` is exactly `Score.isNan`. -/
inductive Score where
  | nan : Score
  | val : ℚ → Score
deriving DecidableEq, Repr

/-- Python `score != score`, which is true exactly for NaN. -/
def Score.isNan : Score → Bool
  | .nan => true
  | .val _ => false

/-- A Python dict from strings, as an association list in insertion order. -/
abbrev Dict (α : Type) := List (String × α)

/-- A score map, `Dict[str, float]` in the source. -/
abbrev ScoreMap := Dict Score

/-- Python dict lookup `d[k]` / `d.get(k)`: first (unique) matching key. -/
def alookup {α : Type} : Dict α → String → Option α
  | [], _ => none
  | (k', v) :: rest, k => if k' = k then some v else alookup rest k

/-- Python dict assignment `d[k] = v`: replace in place, else append. -/
def dictInsert {α : Type} : Dict α → String → α → Dict α
  | [], k, v => [(k, v)]
  | (k', v') :: rest, k, v =>
      if k' = k then (k', v) :: rest else (k', v') :: dictInsert rest k v

/-- A Python exception: class name and message.  The executor formats it
as `type(e).__name__: str(e)`. -/
structure Exc where
  excName : String
  msg : String
deriving DecidableEq, Repr

/-- The `f"⟨type(e).__name__⟩: ⟨str(e)⟩"` formatting in the executor. -/
def fmtExc (e : Exc) : String := e.excName ++ ": " ++ e.msg

/-- Adapter-level `Document` dataclass from `src/adapters/base.py`. -/
structure Document where
  id : String
  content : String
  metadata : Dict String
deriving DecidableEq, Repr

/-- Adapter-level `RAGResponse` dataclass from `src/adapters/base.py`. -/
structure RAGResponse where
  answer : String
  context : List String
  metadata : Dict String
  latencyMs : ℚ
deriving DecidableEq, Repr

/-- `DocumentData` from `src/core/schemas.py`: core document record.
`pdfPath` is `None` for text-based datasets, whose text sits in
`metadata` under the key `content`. -/
structure DocumentData where
  docId : String
  docTitle : String
  pdfPath : Option String
  pdfSizeBytes : Nat
  metadata : Dict String
deriving DecidableEq, Repr

/-- `QuestionData` from `src/core/schemas.py`. -/
structure QuestionData where
  questionId : String
  question : String
  groundTruth : String
  metadata : Dict String
deriving DecidableEq, Repr

/-- `QuestionResult` from `src/core/schemas.py`. -/
structure QuestionResult where
  questionId : String
  question : String
  groundTruth : String
  responseAnswer : String
  responseContext : List String
  responseLatencyMs : ℚ
  responseMetadata : Dict String
  evaluationScores : ScoreMap
deriving DecidableEq, Repr

/-- `ProviderResult` from `src/core/schemas.py`, with its field defaults. -/
structure ProviderResult where
  provider : String
  docId : String
  status : String
  error : Option String := none
  indexId : Option String := none
  questions : List QuestionResult := []
  aggregatedScores : ScoreMap := []
  durationSeconds : ℚ := 0
  timestampStart : String := ""
  timestampEnd : String := ""
deriving DecidableEq, Repr

/-- `RAGEvaluationSample` from `src/core/ragas_evaluator.py`; its metadata
dict is `{"provider": provider_name}` in the executor, kept as a field. -/
structure RAGEvaluationSample where
  userInput : String
  reference : String
  retrievedContexts : List String
  response : String
  metadataProvider : String
deriving DecidableEq, Repr

/-- Wall-clock oracle: `datetime.now().isoformat()` strings and
`time.time()` readings at entry and exit of `execute`. -/
structure Clock where
  isoStart : String
  isoEnd : String
  tStart : ℚ
  tEnd : ℚ
deriving DecidableEq, Repr

/-- Events recorded while `ProviderExecutor.execute` runs: semaphore
operations, external calls and the retry delay. -/
inductive Ev where
  | provAcquire : Ev
  | provRelease : Ev
  | ragasAcquire : Ev
  | ragasRelease : Ev
  | ingestCall : Ev
  | queryCall : String → Ev
  | scoreCall : Ev
  | sleepCall : ℚ → Ev
deriving DecidableEq, Repr

/-- The behaviors of the external collaborators seen by one task: the
adapter (ingest and query) and the Ragas evaluator.  `evaluate` is indexed
by the retry attempt number, since the external service may answer
differently on each attempt. -/
structure Behavior where
  ingest : Document → Except Exc String
  query : String → String → Except Exc RAGResponse
  evaluate : List RAGEvaluationSample → Nat → Except Exc ScoreMap

/-- Step 1 of `execute`: build the provider-agnostic `Document` from the
core `DocumentData` (PDF-based or text-based branch). -/
def buildDocument (doc : DocumentData) : Document :=
  match doc.pdfPath with
  | some path =>
      { id := doc.docId
        content := ""
        metadata := [("file_path", path), ("title", doc.docTitle)] }
  | none =>
      { id := doc.docId
        content := (alookup doc.metadata "content").getD ""
        metadata := [("title", doc.docTitle), ("document_type", "text")] }

/-- Step 2 of `execute`: query every question in order, building one
`QuestionResult` (scores left empty) and one evaluation sample per
question.  The first failing query aborts the whole task.  Returns the
emitted query events alongside the outcome. -/
def runQueries (b : Behavior) (providerName indexId : String) :
    List QuestionData →
      List Ev × Except Exc (List QuestionResult × List RAGEvaluationSample)
  | [] => ([], .ok ([], []))
  | q :: rest =>
      match b.query q.question indexId with
      | .error e => ([.queryCall q.questionId], .error e)
      | .ok resp =>
          let qr : QuestionResult :=
            { questionId := q.questionId
              question := q.question
              groundTruth := q.groundTruth
              responseAnswer := resp.answer
              responseContext := resp.context
              responseLatencyMs := resp.latencyMs
              responseMetadata := resp.metadata
              evaluationScores := [] }
          let sample : RAGEvaluationSample :=
            { userInput := q.question
              reference := q.groundTruth
              retrievedContexts := resp.context
              response := resp.answer
              metadataProvider := providerName }
          let (evs, res) := runQueries b providerName indexId rest
          (.queryCall q.questionId :: evs,
            res.map (fun p => (qr :: p.1, sample :: p.2)))

/-- The `max_retries = 3` bound of the scoring retry loop. -/
def maxRetries : Nat := 3

/-- Python `any(score != score for score in scores.values())`. -/
def hasNan (m : ScoreMap) : Bool := m.any (fun p => p.2.isNan)

/-- Last-attempt cleanup: every NaN metric value is replaced by `0.0`. -/
def cleanNan (m : ScoreMap) : ScoreMap :=
  m.map (fun p => (p.1, if p.2.isNan then Score.val 0 else p.2))

/-- One `for attempt in range(max_retries)` loop of the scoring step,
from the current attempt with the given remaining fuel.  A NaN result or
a raised error retries (after a 2 second sleep) while `attempt <
max_retries - 1`; on the last attempt NaN values are cleaned to `0.0`
and a raised error propagates.  The fuel-exhausted branch corresponds to
the dead `eval_result is None` RuntimeError after the loop. -/
def evalRetryGo (evalFn : Nat → Except Exc ScoreMap) :
    Nat → Nat → List Ev × Except Exc ScoreMap
  | 0, _ =>
      ([], .error ⟨"RuntimeError", "Evaluation failed after 3 attempts"⟩)
  | fuel + 1, attempt =>
      match evalFn attempt with
      | .ok scores =>
          if hasNan scores then
            if attempt < maxRetries - 1 then
              let (evs, r) := evalRetryGo evalFn fuel (attempt + 1)
              (.scoreCall :: .sleepCall 2 :: evs, r)
            else
              ([.scoreCall], .ok (cleanNan scores))
          else
            ([.scoreCall], .ok scores)
      | .error e =>
          if attempt < maxRetries - 1 then
            let (evs, r) := evalRetryGo evalFn fuel (attempt + 1)
            (.scoreCall :: .sleepCall 2 :: evs, r)
          else
            ([.scoreCall], .error e)

/-- The scoring retry loop, entered with attempt 0 and full fuel. -/
def evalRetry (evalFn : Nat → Except Exc ScoreMap) :
    List Ev × Except Exc ScoreMap :=
  evalRetryGo evalFn maxRetries 0

/-- The initial `ProviderResult` built at the top of `execute`, before
the try block runs. -/
def initialResult (c : Clock) (providerName : String)
    (doc : DocumentData) : ProviderResult :=
  { provider := providerName
    docId := doc.docId
    status := "pending"
    timestampStart := c.isoStart }

/-- The try/except body of `execute`, between acquiring and releasing the
provider semaphore: ingest, query loop, scoring with retry, and the
conversion of any raised exception into a `status = "error"` result. -/
def executeBody (b : Behavior) (providerName : String)
    (r0 : ProviderResult) (doc : DocumentData)
    (questions : List QuestionData) : List Ev × ProviderResult :=
  match b.ingest (buildDocument doc) with
  | .error e =>
      ([.ingestCall],
        { r0 with status := "error", error := some (fmtExc e) })
  | .ok indexId =>
      let r1 := { r0 with indexId := some indexId }
      match runQueries b providerName indexId questions with
      | (qEvs, .error e) =>
          (.ingestCall :: qEvs,
            { r1 with status := "error", error := some (fmtExc e) })
      | (qEvs, .ok (qrs, samples)) =>
          match evalRetry (b.evaluate samples) with
          | (sEvs, sres) =>
              let evs :=
                .ingestCall :: qEvs ++
                  .ragasAcquire :: sEvs ++ [.ragasRelease]
              match sres with
              | .ok scores =>
                  (evs,
                    { r1 with
                        questions :=
                          qrs.map
                            (fun qr =>
                              { qr with evaluationScores := scores })
                        aggregatedScores := scores
                        status := "success" })
              | .error e =>
                  (evs,
                    { r1 with
                        status := "error", error := some (fmtExc e) })

/-- The finally block of `execute` after the provider semaphore release:
record the end timestamp and duration, and append the wall-clock
duration to the aggregated scores of a non-empty success result. -/
def finalizeResult (c : Clock) (r : ProviderResult) : ProviderResult :=
  let dur := c.tEnd - c.tStart
  let r2 := { r with durationSeconds := dur, timestampEnd := c.isoEnd }
  if r2.status = "success" ∧ r2.aggregatedScores ≠ [] then
    { r2 with
        aggregatedScores :=
          dictInsert r2.aggregatedScores "duration_seconds" (.val dur) }
  else r2

/-- `ProviderExecutor.execute` from `src/core/provider_executor.py`: run
one (provider, document) task end to end, returning the `ProviderResult`
together with the trace of semaphore operations and external calls.  It
is a total function: every failure of an external call is converted into
a `status = "error"` result. -/
def execute (b : Behavior) (c : Clock) (providerName : String)
    (doc : DocumentData) (questions : List QuestionData) :
    ProviderResult × List Ev :=
  let body :=
    executeBody b providerName (initialResult c providerName doc) doc
      questions
  (finalizeResult c body.2, .provAcquire :: body.1 ++ [.provRelease])

/-- Nested dict lookup `m[k1][k2]` with both lookups optional. -/
def dlookup2 {α : Type} (m : Dict (Dict α)) (k1 k2 : String) : Option α :=
  (alookup m k1).bind (fun inner => alookup inner k2)

/-- One (provider, document) work item, carrying the question list of the
document, as produced by `Orchestrator._create_task_combinations`.  The
adapter object of the tuple is identified by the provider name. -/
structure Task where
  provider : String
  doc : DocumentData
  questions : List QuestionData
deriving DecidableEq, Repr

/-- `Orchestrator._create_task_combinations`: document order outer,
provider (adapter dict) order inner; looking up a document id missing
from the question map raises a KeyError, modelled as the error case. -/
def createTaskCombinations :
    List DocumentData → Dict (List QuestionData) → List String →
      Except String (List Task)
  | [], _, _ => .ok []
  | doc :: docs, questionsByDoc, providers =>
      match alookup questionsByDoc doc.docId with
      | none => .error doc.docId
      | some questions =>
          (createTaskCombinations docs questionsByDoc providers).map
            (fun rest =>
              providers.map (fun p => Task.mk p doc questions) ++ rest)

/-- The persisted provider-result files, as the set of
(document id, provider name) keys present on disk. -/
abbrev Store := List (String × String)

/-- Writing a provider-result file: a second write to the same key
leaves a single file. -/
def storeAdd (store : Store) (key : String × String) : Store :=
  if key ∈ store then store else store ++ [key]

/-- `Orchestrator._should_skip_task`: with resume enabled, skip when the
provider result file for the (provider, document) pair already exists. -/
def shouldSkipTask (resumeEnabled : Bool) (store : Store)
    (providerName docId : String) : Bool :=
  resumeEnabled && decide ((docId, providerName) ∈ store)

/-- Insert into `doc_results_map[doc_id][provider_name]`, a defaultdict
of dicts in the source. -/
def mapInsert2 :
    Dict (Dict ProviderResult) → String → String → ProviderResult →
      Dict (Dict ProviderResult)
  | [], docId, p, r => [(docId, [(p, r)])]
  | (k, inner) :: rest, docId, p, r =>
      if k = docId then (k, dictInsert inner p r) :: rest
      else (k, inner) :: mapInsert2 rest docId p r

/-- One submitted task as seen by the collection loop: the task, whether
collecting its future raised (the thread-failure path), the executor
result and the trace the executor emitted while running. -/
structure ExecutedTask where
  task : Task
  threadExc : Option Exc
  result : ProviderResult
  trace : List Ev

/-- The `as_completed` collection loop of `run_benchmark`: a normally
completed future stores its result in the results map and persists it;
a future whose collection raised is logged only, storing and persisting
nothing.  Completion order is abstracted to submission order, which the
spec declares semantically insignificant. -/
def collectResults :
    List ExecutedTask → Dict (Dict ProviderResult) × Store →
      Dict (Dict ProviderResult) × Store
  | [], acc => acc
  | et :: rest, (m, store) =>
      match et.threadExc with
      | none =>
          collectResults rest
            (mapInsert2 m et.task.doc.docId et.task.provider et.result,
              storeAdd store (et.task.doc.docId, et.task.provider))
      | some _ => collectResults rest (m, store)

/-- `Orchestrator._aggregate_provider_scores`: the provider_scores map of
one document, keeping only providers with a success result. -/
def aggregateProviderScores (providerResults : Dict ProviderResult) :
    Dict ScoreMap :=
  providerResults.filterMap
    (fun pr =>
      if pr.2.status = "success" then some (pr.1, pr.2.aggregatedScores)
      else none)

/-- `DocumentResult` from `src/core/schemas.py`.  The winner field holds
the provider_scores map that the source wraps in a one-key dict. -/
structure DocumentResult where
  docId : String
  docTitle : String
  numQuestions : Nat
  providers : Dict ProviderResult
  winner : Dict ScoreMap
  timestamp : String := ""
deriving DecidableEq, Repr

/-- Step 7 of `run_benchmark`: one `DocumentResult` per document that has
an entry in the results map, in document order; documents with no entry
(all tasks skipped or thread-failed) produce none. -/
def buildDocResults (questionsByDoc : Dict (List QuestionData))
    (timestamp : String) (m : Dict (Dict ProviderResult))
    (docs : List DocumentData) : List DocumentResult :=
  docs.filterMap
    (fun doc =>
      (alookup m doc.docId).map
        (fun providerResults =>
          { docId := doc.docId
            docTitle := doc.docTitle
            numQuestions :=
              ((alookup questionsByDoc doc.docId).getD []).length
            providers := providerResults
            winner := aggregateProviderScores providerResults
            timestamp := timestamp }))

/-- Append one score to `provider_metric_scores[p][m]` at the metric
level (a defaultdict of lists in the source). -/
def appendAt : Dict (List Score) → String → Score → Dict (List Score)
  | [], m, s => [(m, [s])]
  | (k, l) :: rest, m, s =>
      if k = m then (k, l ++ [s]) :: rest
      else (k, l) :: appendAt rest m s

/-- Append one score to `provider_metric_scores[p][m]`, outer level. -/
def appendAt2 :
    Dict (Dict (List Score)) → String → String → Score →
      Dict (Dict (List Score))
  | [], p, m, s => [(p, [(m, [s])])]
  | (k, inner) :: rest, p, m, s =>
      if k = p then (k, appendAt inner m s) :: rest
      else (k, inner) :: appendAt2 rest p m s

/-- Inner loop of `_determine_overall_winner`: fold the metric entries of
one provider of one document into the accumulator. -/
def accumScores (p : String) (acc : Dict (Dict (List Score)))
    (scores : ScoreMap) : Dict (Dict (List Score)) :=
  scores.foldl (fun a e => appendAt2 a p e.1 e.2) acc

/-- Middle loop of `_determine_overall_winner`: fold the provider_scores
entries of one document into the accumulator. -/
def accumDoc (acc : Dict (Dict (List Score))) (winner : Dict ScoreMap) :
    Dict (Dict (List Score)) :=
  winner.foldl (fun a e => accumScores e.1 a e.2) acc

/-- Python float addition: NaN absorbs. -/
def Score.add : Score → Score → Score
  | .val a, .val b => .val (a + b)
  | _, _ => .nan

/-- Python `sum(scores)`, starting from 0. -/
def sumScores (l : List Score) : Score := l.foldl Score.add (.val 0)

/-- Python `sum(scores) / len(scores)`. -/
def avgScores (l : List Score) : Score :=
  match sumScores l with
  | .nan => .nan
  | .val s => .val (s / (l.length : ℚ))

/-- `Orchestrator._determine_overall_winner`: collect every metric score
of every provider across the document results, then average each
(provider, metric) list; an empty collection returns the empty map. -/
def determineOverallWinner (docResults : List DocumentResult) :
    Dict (Dict Score) :=
  let acc := docResults.foldl (fun a dr => accumDoc a dr.winner) []
  if acc = [] then []
  else
    acc.map
      (fun pe => (pe.1, pe.2.map (fun me => (me.1, avgScores me.2))))

/-- The environment of one `run_benchmark` call: per-provider adapter and
evaluator behavior, the clock, which dispatches thread-fail, and the
timestamp used for document results. -/
structure World where
  behaviorOf : String → Behavior
  clock : Clock
  dispatchExc : String → String → Option Exc
  timestamp : String

/-- Run every task through `ProviderExecutor.execute`; the thread-failure
oracle marks the tasks whose future raises at collection time. -/
def executeTasks (w : World) : List Task → List ExecutedTask :=
  List.map
    (fun t =>
      let er :=
        execute (w.behaviorOf t.provider) w.clock t.provider t.doc
          t.questions
      { task := t, threadExc := w.dispatchExc t.provider t.doc.docId,
        result := er.1, trace := er.2 })

/-- All external-call and semaphore events of the executed tasks. -/
def runEvents : List ExecutedTask → List Ev
  | [] => []
  | et :: rest => et.trace ++ runEvents rest

/-- What `run_benchmark` leaves behind: the in-memory results map, the
persisted store, the aggregated document results, the cross-document
provider averages of the run summary, the emitted events, and the
document count. -/
structure RunOutcome where
  docResultsMap : Dict (Dict ProviderResult)
  store : Store
  results : List DocumentResult
  overallWinner : Dict (Dict Score)
  events : List Ev
  numDocs : Nat

/-- Body of `run_benchmark` after task generation succeeded: drop the
tasks whose persisted result already exists when resume is enabled,
execute the rest, collect and persist results as futures resolve,
aggregate one `DocumentResult` per document with results, and compute
the cross-document provider averages of the run summary. -/
def runScheduled (w : World) (docs : List DocumentData)
    (questionsByDoc : Dict (List QuestionData)) (resumeEnabled : Bool)
    (store0 : Store) (tasks : List Task) : RunOutcome :=
  let tasksToRun :=
    tasks.filter
      (fun t =>
        !(shouldSkipTask resumeEnabled store0 t.provider t.doc.docId))
  let executed := executeTasks w tasksToRun
  let ms := collectResults executed ([], store0)
  let results := buildDocResults questionsByDoc w.timestamp ms.1 docs
  { docResultsMap := ms.1
    store := ms.2
    results := results
    overallWinner := determineOverallWinner results
    events := runEvents executed
    numDocs := docs.length }

/-- `Orchestrator.run_benchmark` with (provider, document)
parallelization: generate the task combinations and run them through
`runScheduled`.  The only error is the KeyError of task generation. -/
def runBenchmark (w : World) (docs : List DocumentData)
    (questionsByDoc : Dict (List QuestionData)) (providers : List String)
    (resumeEnabled : Bool) (store0 : Store) : Except String RunOutcome :=
  (createTaskCombinations docs questionsByDoc providers).map
    (runScheduled w docs questionsByDoc resumeEnabled store0)

/-- Number of scoring-service calls in a trace. -/
def countScoreCalls : List Ev → Nat
  | [] => 0
  | .scoreCall :: rest => countScoreCalls rest + 1
  | _ :: rest => countScoreCalls rest

/-- State of the semaphore-discipline checker: current depth and total
acquisition count of the provider permit and of the scoring permit. -/
structure SemState where
  provDepth : Nat
  ragasDepth : Nat
  provAcqCount : Nat
  ragasAcqCount : Nat
deriving DecidableEq, Repr

/-- One step of the semaphore-discipline checker.  It rejects a release
without a matching acquire, a provider release while the scoring permit
is held, an ingest or query outside the provider permit or inside the
scoring permit, and a scoring call or retry sleep outside both permits. -/
def stepEv (s : SemState) : Ev → Option SemState
  | .provAcquire =>
      some { s with
        provDepth := s.provDepth + 1, provAcqCount := s.provAcqCount + 1 }
  | .provRelease =>
      if s.provDepth = 1 ∧ s.ragasDepth = 0 then
        some { s with provDepth := 0 }
      else none
  | .ragasAcquire =>
      if s.provDepth = 1 ∧ s.ragasDepth = 0 then
        some { s with
          ragasDepth := 1, ragasAcqCount := s.ragasAcqCount + 1 }
      else none
  | .ragasRelease =>
      if s.ragasDepth = 1 then some { s with ragasDepth := 0 } else none
  | .ingestCall =>
      if s.provDepth = 1 ∧ s.ragasDepth = 0 then some s else none
  | .queryCall _ =>
      if s.provDepth = 1 ∧ s.ragasDepth = 0 then some s else none
  | .scoreCall =>
      if s.provDepth = 1 ∧ s.ragasDepth = 1 then some s else none
  | .sleepCall _ =>
      if s.provDepth = 1 ∧ s.ragasDepth = 1 then some s else none

/-- Run the semaphore-discipline checker over a trace. -/
def runTrace : Option SemState → List Ev → Option SemState
  | s, [] => s
  | none, _ :: _ => none
  | some s, e :: rest => runTrace (stepEv s e) rest

/-- A trace respects the permit discipline: every step is legal, the
provider permit is acquired exactly once and finally released, and the
scoring permit is acquired at most once and finally released. -/
def traceOK (evs : List Ev) : Bool :=
  match runTrace (some ⟨0, 0, 0, 0⟩) evs with
  | some s =>
      s.provDepth = 0 ∧ s.ragasDepth = 0 ∧ s.provAcqCount = 1 ∧
        s.ragasAcqCount ≤ 1
  | none => false

/-- Substring test on character lists. -/
def listContainsSub (l pat : List Char) : Bool :=
  match l with
  | [] => pat.isEmpty
  | _ :: rest => pat.isPrefixOf l || listContainsSub rest pat

/-- Substring test on strings, for checking that an error message does
not carry a taxonomy kind label. -/
def strContainsSub (s pat : String) : Bool :=
  listContainsSub s.data pat.data

/-- A concrete PDF-based document. -/
def sampleDoc : DocumentData :=
  ⟨"d1", "Doc One", some "/data/d1.pdf", 10, []⟩

/-- A concrete question. -/
def sampleQuestion : QuestionData := ⟨"q1", "What is studied?", "42", []⟩

/-- A concrete clock: the task takes 7 seconds of wall-clock time. -/
def sampleClock : Clock := ⟨"t0", "t1", 100, 107⟩

/-- A concrete adapter answer. -/
def sampleResponse : RAGResponse := ⟨"ans", ["ctx"], [], 5⟩

/-- A behavior where ingest, query and first-attempt scoring succeed. -/
def behOK : Behavior :=
  { ingest := fun _ => .ok "idx1"
    query := fun _ _ => .ok sampleResponse
    evaluate := fun _ _ => .ok [("faithfulness", .val (9 / 10))] }

/-- A behavior whose scoring stub returns NaN on the first two attempts
and a valid value on the third. -/
def behNaNThenValid : Behavior :=
  { behOK with
      evaluate := fun _ attempt =>
        if attempt < 2 then .ok [("faithfulness", .nan)]
        else .ok [("faithfulness", .val (7 / 10))] }

/-- A behavior whose scoring stub always returns NaN. -/
def behNaNAlways : Behavior :=
  { behOK with evaluate := fun _ _ => .ok [("faithfulness", .nan)] }

/-- A behavior whose ingest raises `ValueError("boom")`. -/
def behIngestFail : Behavior :=
  { behOK with ingest := fun _ => .error ⟨"ValueError", "boom"⟩ }

/-- A behavior whose scoring service returns an empty score map. -/
def behEmptyScores : Behavior :=
  { behOK with evaluate := fun _ _ => .ok [] }

/-- A world where every task dispatches and completes normally. -/
def worldOK : World := ⟨fun _ => behOK, sampleClock, fun _ _ => none, "ts"⟩

/-- A world where collecting every future raises: the dispatch mechanism
fails although the executor itself never raised. -/
def worldThreadFail : World :=
  ⟨fun _ => behOK, sampleClock, fun _ _ => some ⟨"RuntimeError", "pool"⟩,
    "ts"⟩

/-- A scoring stub for the retry-loop witness: always a valid value. -/
def evalFnValid : Nat → Except Exc ScoreMap :=
  fun _ => .ok [("m", .val 1)]

/-- A concrete success ProviderResult with one metric score, used by the
aggregation witness. -/
def successResult (docId : String) (q : ℚ) : ProviderResult :=
  { provider := "provX", docId := docId, status := "success",
    aggregatedScores := [("m", .val q)] }

/-- A document result for docA where provX scored m = 0.6. -/
def docResultA : DocumentResult :=
  { docId := "docA", docTitle := "A", numQuestions := 1,
    providers := [("provX", successResult "docA" (6 / 10))],
    winner :=
      aggregateProviderScores [("provX", successResult "docA" (6 / 10))] }

/-- A document result for docB where provX scored m = 0.8. -/
def docResultB : DocumentResult :=
  { docId := "docB", docTitle := "B", numQuestions := 1,
    providers := [("provX", successResult "docB" (8 / 10))],
    winner :=
      aggregateProviderScores [("provX", successResult "docB" (8 / 10))] }

/-- The (document id, provider name) key of a task. -/
def Task.pairKey (t : Task) : String × String := (t.doc.docId, t.provider)

/-- The results the collection loop stores for one (document, provider)
pair, in completion order: results of executed tasks for that pair whose
future resolved without a thread failure. -/
def storedFor (l : List ExecutedTask) (docId providerName : String) :
    List ProviderResult :=
  l.filterMap
    (fun et =>
      if et.task.doc.docId = docId ∧ et.task.provider = providerName ∧
          et.threadExc = none
        then some et.result else none)

/-- Repeated dict overwrites of one key: the last written value wins. -/
def lastWrite (o : Option ProviderResult) (l : List ProviderResult) :
    Option ProviderResult :=
  l.foldl (fun _ r => some r) o

/-- Every value one score map holds under one metric name. -/
def scoreVals : ScoreMap → String → List Score
  | [], _ => []
  | e :: rest, m => (if e.1 = m then [e.2] else []) ++ scoreVals rest m

/-- The metric values one provider_scores map contributes for provider p
and metric m in the cross-document averaging loop. -/
def docVals : Dict ScoreMap → String → String → List Score
  | [], _, _ => []
  | e :: rest, p, m =>
      (if e.1 = p then scoreVals e.2 m else []) ++ docVals rest p m

/-- The metric values all document results contribute for (p, m). -/
def runVals : List DocumentResult → String → String → List Score
  | [], _, _ => []
  | dr :: rest, p, m => docVals dr.winner p m ++ runVals rest p m

/-- Access provider_metric_scores[p][m], defaulting to the empty list. -/
def pmGet (acc : Dict (Dict (List Score))) (p m : String) : List Score :=
  match alookup acc p with
  | none => []
  | some inner => (alookup inner m).getD []

theorem alookup_dictInsert_self {α : Type} (m : Dict α) (k : String)
    (v : α) : alookup (dictInsert m k v) k = some v := by
  induction m with
  | nil => simp [dictInsert, alookup]
  | cons hd t ih =>
      obtain ⟨k0, v0⟩ := hd
      by_cases hk : k0 = k
      · simp [dictInsert, hk, alookup]
      · simp [dictInsert, hk, alookup, ih]

theorem alookup_dictInsert_ne {α : Type} (m : Dict α) (k k' : String)
    (v : α) (h : k' ≠ k) :
    alookup (dictInsert m k v) k' = alookup m k' := by
  induction m with
  | nil =>
      simp only [dictInsert, alookup]
      rw [if_neg (fun he => h he.symm)]
  | cons hd t ih =>
      obtain ⟨k0, v0⟩ := hd
      by_cases hk : k0 = k
      · subst hk
        simp only [dictInsert, if_pos rfl, alookup]
        rw [if_neg (fun he => h he.symm), if_neg (fun he => h he.symm)]
      · simp only [dictInsert, if_neg hk, alookup]
        by_cases hk' : k0 = k'
        · simp [hk']
        · simp [hk', ih]

theorem runQueries_ok (b : Behavior) (p i : String) :
    ∀ (qs : List QuestionData) (qEvs : List Ev)
      (qrs : List QuestionResult) (samples : List RAGEvaluationSample),
      runQueries b p i qs = (qEvs, .ok (qrs, samples)) →
      qrs.length = qs.length ∧
        qrs.map (fun qr => qr.questionId) = qs.map (fun q => q.questionId) := by
  intro qs
  induction qs with
  | nil =>
      intro qEvs qrs samples h
      simp only [runQueries, Prod.mk.injEq, Except.ok.injEq] at h
      obtain ⟨-, h2, -⟩ := h
      simp [← h2]
  | cons q rest ih =>
      intro qEvs qrs samples h
      simp only [runQueries] at h
      cases hq : b.query q.question i with
      | error e => rw [hq] at h; simp at h
      | ok resp =>
          rw [hq] at h
          cases hr : runQueries b p i rest with
          | mk evs0 res0 =>
              rw [hr] at h
              cases res0 with
              | error e => simp [Except.map] at h
              | ok pr =>
                  obtain ⟨qrs0, samples0⟩ := pr
                  simp only [Except.map, Prod.mk.injEq,
                    Except.ok.injEq] at h
                  obtain ⟨-, h2, -⟩ := h
                  obtain ⟨h3, h4⟩ := ih evs0 qrs0 samples0 (by rw [hr])
                  simp [← h2, h3, h4]

theorem countScoreCalls_evalRetryGo (f : Nat → Except Exc ScoreMap) :
    ∀ (fuel attempt : Nat),
      countScoreCalls (evalRetryGo f fuel attempt).1 ≤ fuel := by
  intro fuel
  induction fuel with
  | zero => intro attempt; simp [evalRetryGo, countScoreCalls]
  | succ n ih =>
      intro attempt
      simp only [evalRetryGo]
      cases f attempt with
      | ok scores =>
          by_cases hn : hasNan scores = true
          · simp only [hn, if_true]
            by_cases ha : attempt < maxRetries - 1
            · simp only [ha, if_true]
              cases hr : evalRetryGo f n (attempt + 1) with
              | mk evs r =>
                  have := ih (attempt + 1)
                  rw [hr] at this
                  simpa [countScoreCalls] using this
            · simp [ha, countScoreCalls]
          · simp [hn, countScoreCalls]
      | error e =>
          by_cases ha : attempt < maxRetries - 1
          · simp only [ha, if_true]
            cases hr : evalRetryGo f n (attempt + 1) with
            | mk evs r =>
                have := ih (attempt + 1)
                rw [hr] at this
                simpa [countScoreCalls] using this
          · simp [ha, countScoreCalls]

theorem finalizeResult_fields (c : Clock) (r : ProviderResult) :
    (finalizeResult c r).status = r.status ∧
      (finalizeResult c r).timestampStart = r.timestampStart ∧
      (finalizeResult c r).timestampEnd = c.isoEnd ∧
      (finalizeResult c r).durationSeconds = c.tEnd - c.tStart ∧
      (finalizeResult c r).error = r.error ∧
      (finalizeResult c r).questions = r.questions ∧
      (finalizeResult c r).indexId = r.indexId := by
  by_cases hc : r.status = "success" ∧ r.aggregatedScores ≠ []
  · simp [finalizeResult, hc]
  · simp [finalizeResult, hc]

theorem finalizeResult_aggregated (c : Clock) (r : ProviderResult) :
    (finalizeResult c r).aggregatedScores =
      if r.status = "success" ∧ r.aggregatedScores ≠ [] then
        dictInsert r.aggregatedScores "duration_seconds"
          (.val (c.tEnd - c.tStart))
      else r.aggregatedScores := by
  by_cases hc : r.status = "success" ∧ r.aggregatedScores ≠ []
  · simp [finalizeResult, hc]
  · simp [finalizeResult, hc]

theorem executeBody_status (b : Behavior) (p : String)
    (r0 : ProviderResult) (d : DocumentData) (qs : List QuestionData) :
    (executeBody b p r0 d qs).2.status = "success" ∨
      (executeBody b p r0 d qs).2.status = "error" := by
  unfold executeBody
  cases hi : b.ingest (buildDocument d) with
  | error e => simp
  | ok idx =>
      dsimp only
      rcases hq : runQueries b p idx qs with ⟨qEvs, qres⟩
      · cases qres with
          | error e => simp
          | ok pr =>
              obtain ⟨qrs, samples⟩ := pr
              cases hs : (evalRetry (b.evaluate samples)).2 with
              | error e => simp [hs]
              | ok scores => simp [hs]

theorem executeBody_timestampStart (b : Behavior) (p : String)
    (r0 : ProviderResult) (d : DocumentData) (qs : List QuestionData) :
    (executeBody b p r0 d qs).2.timestampStart = r0.timestampStart := by
  unfold executeBody
  cases hi : b.ingest (buildDocument d) with
  | error e => simp
  | ok idx =>
      dsimp only
      rcases hq : runQueries b p idx qs with ⟨qEvs, qres⟩
      · cases qres with
          | error e => simp
          | ok pr =>
              obtain ⟨qrs, samples⟩ := pr
              cases hs : (evalRetry (b.evaluate samples)).2 with
              | error e => simp [hs]
              | ok scores => simp [hs]

theorem executeBody_error_fields (b : Behavior) (p : String)
    (r0 : ProviderResult) (d : DocumentData) (qs : List QuestionData)
    (h : (executeBody b p r0 d qs).2.status = "error") :
    (∃ e, (executeBody b p r0 d qs).2.error = some (fmtExc e)) ∧
      (executeBody b p r0 d qs).2.questions = r0.questions ∧
      (executeBody b p r0 d qs).2.aggregatedScores =
        r0.aggregatedScores := by
  revert h
  unfold executeBody
  cases hi : b.ingest (buildDocument d) with
  | error e => intro h; exact ⟨⟨e, by simp⟩, by simp, by simp⟩
  | ok idx =>
      dsimp only
      rcases hq : runQueries b p idx qs with ⟨qEvs, qres⟩
      · cases qres with
          | error e => intro h; exact ⟨⟨e, by simp⟩, by simp, by simp⟩
          | ok pr =>
              obtain ⟨qrs, samples⟩ := pr
              cases hs : (evalRetry (b.evaluate samples)).2 with
              | error e =>
                  intro h
                  exact ⟨⟨e, by simp [hs]⟩, by simp [hs], by simp [hs]⟩
              | ok scores => intro h; simp [hs] at h

theorem executeBody_success (b : Behavior) (p : String)
    (r0 : ProviderResult) (d : DocumentData) (qs : List QuestionData)
    (h : (executeBody b p r0 d qs).2.status = "success") :
    ∃ idx qEvs qrs samples scores,
      b.ingest (buildDocument d) = .ok idx ∧
        runQueries b p idx qs = (qEvs, .ok (qrs, samples)) ∧
        (evalRetry (b.evaluate samples)).2 = .ok scores ∧
        (executeBody b p r0 d qs).2 =
          { r0 with
              indexId := some idx
              questions :=
                qrs.map
                  (fun qr => { qr with evaluationScores := scores })
              aggregatedScores := scores
              status := "success" } := by
  revert h
  unfold executeBody
  cases hi : b.ingest (buildDocument d) with
  | error e => intro h; simp at h
  | ok idx =>
      dsimp only
      rcases hq : runQueries b p idx qs with ⟨qEvs, qres⟩
      · cases qres with
          | error e => intro h; simp at h
          | ok pr =>
              obtain ⟨qrs, samples⟩ := pr
              cases hs : (evalRetry (b.evaluate samples)).2 with
              | error e => intro h; simp [hs] at h
              | ok scores =>
                  intro h
                  exact ⟨idx, qEvs, qrs, samples, scores, rfl, hq, hs,
                    by simp [hs]⟩

theorem dictInsert_ne_nil {α : Type} (m : Dict α) (k : String) (v : α) :
    dictInsert m k v ≠ [] := by
  cases m with
  | nil => simp [dictInsert]
  | cons hd t =>
      obtain ⟨k0, v0⟩ := hd
      by_cases h : k0 = k <;> simp [dictInsert, h]

theorem execute_fst (b : Behavior) (c : Clock) (p : String)
    (d : DocumentData) (qs : List QuestionData) :
    (execute b c p d qs).1 =
      finalizeResult c (executeBody b p (initialResult c p d) d qs).2 :=
  rfl

theorem execute_snd (b : Behavior) (c : Clock) (p : String)
    (d : DocumentData) (qs : List QuestionData) :
    (execute b c p d qs).2 =
      .provAcquire ::
        (executeBody b p (initialResult c p d) d qs).1 ++
          [.provRelease] :=
  rfl

/-- C3 (amended): `ProviderExecutor.execute` returns a `ProviderResult`
on every input and never raises past its boundary; every failure of
ingest, query or scoring is caught and converted into a result with
`status = "error"` whose error field carries the formatted exception
message `ExceptionName: message`; a success result carries no error.
The taxonomy kind labels of the claim (ingest_failed, query_failed,
score_failed) are not attached by the code (see the counterexample). -/
theorem c3_errors_converted (b : Behavior) (c : Clock) (p : String)
    (d : DocumentData) (qs : List QuestionData) :
    ((execute b c p d qs).1.status = "success" ∨
        (execute b c p d qs).1.status = "error") ∧
      ((execute b c p d qs).1.status = "error" →
        ∃ e, (execute b c p d qs).1.error = some (fmtExc e)) ∧
      ((execute b c p d qs).1.status = "success" →
        (execute b c p d qs).1.error = none) := by
  have hb := executeBody_status b p (initialResult c p d) d qs
  obtain ⟨hstat, -, -, -, herr, -, -⟩ :=
    finalizeResult_fields c (executeBody b p (initialResult c p d) d qs).2
  rw [execute_fst, hstat, herr]
  refine ⟨hb, ?_, ?_⟩
  · intro h
    exact (executeBody_error_fields b p _ d qs h).1
  · intro h
    obtain ⟨idx, qEvs, qrs, samples, scores, -, -, -, hshape⟩ :=
      executeBody_success b p _ d qs h
    rw [hshape]
    simp [initialResult]

/-- Witness for C3: the amended theorem applied to a concrete behavior
whose ingest raises. -/
theorem c3_errors_converted_witness :
    (execute behIngestFail sampleClock "p1" sampleDoc
          [sampleQuestion]).1.status = "error" →
      ∃ e,
        (execute behIngestFail sampleClock "p1" sampleDoc
              [sampleQuestion]).1.error = some (fmtExc e) :=
  (c3_errors_converted behIngestFail sampleClock "p1" sampleDoc
      [sampleQuestion]).2.1

/-- Counterexample for C3 as stated: an ingest failure raising
`ValueError("boom")` produces an error result whose error field is
exactly "ValueError: boom"; it carries no kind label: none of
ingest_failed, query_failed, score_failed occurs in the message. -/
theorem c3_counterexample :
    (execute behIngestFail sampleClock "p1" sampleDoc
          [sampleQuestion]).1.status = "error" ∧
      (execute behIngestFail sampleClock "p1" sampleDoc
            [sampleQuestion]).1.error = some "ValueError: boom" ∧
      strContainsSub "ValueError: boom" "ingest_failed" = false ∧
      strContainsSub "ValueError: boom" "query_failed" = false ∧
      strContainsSub "ValueError: boom" "score_failed" = false := by
  refine ⟨rfl, rfl, ?_, ?_, ?_⟩ <;> decide

/-- C9: every `ProviderResult` returned by `execute` records the start
and end timestamps and the wall-clock duration regardless of outcome,
and the duration is present in the aggregated scores under the
`duration_seconds` pseudo-metric exactly when the result is a success
with a non-empty score map. -/
theorem c9_timing_recorded (b : Behavior) (c : Clock) (p : String)
    (d : DocumentData) (qs : List QuestionData) :
    (execute b c p d qs).1.timestampStart = c.isoStart ∧
      (execute b c p d qs).1.timestampEnd = c.isoEnd ∧
      (execute b c p d qs).1.durationSeconds = c.tEnd - c.tStart ∧
      (alookup (execute b c p d qs).1.aggregatedScores
            "duration_seconds" = some (.val (c.tEnd - c.tStart)) ↔
        (execute b c p d qs).1.status = "success" ∧
          (execute b c p d qs).1.aggregatedScores ≠ []) := by
  obtain ⟨hstat, hts, hte, hdur, -, -, -⟩ :=
    finalizeResult_fields c (executeBody b p (initialResult c p d) d qs).2
  have hagg :=
    finalizeResult_aggregated c
      (executeBody b p (initialResult c p d) d qs).2
  refine ⟨?_, ?_, ?_, ?_⟩
  · rw [execute_fst, hts, executeBody_timestampStart]
    rfl
  · rw [execute_fst, hte]
  · rw [execute_fst, hdur]
  · rw [execute_fst, hstat, hagg]
    rcases executeBody_status b p (initialResult c p d) d qs with hs | hs
    · obtain ⟨idx, qEvs, qrs, samples, scores, -, -, -, hshape⟩ :=
        executeBody_success b p _ d qs hs
      rw [hs, hshape]
      by_cases hsc : scores = []
      · subst hsc
        simp [alookup]
      · simp [hsc, alookup_dictInsert_self, dictInsert_ne_nil]
    · obtain ⟨-, -, haggs⟩ := executeBody_error_fields b p _ d qs hs
      rw [hs, haggs]
      have : ¬(("error" : String) = "success" ∧
          (initialResult c p d).aggregatedScores ≠ []) := by
        intro hcon
        exact absurd hcon.1 (by decide)
      rw [if_neg this]
      simp [initialResult, alookup]

/-- C10: an error `ProviderResult` exposes no per-question results and
no aggregated scores: both are empty, and only the error message is
populated alongside the timing fields. -/
theorem c10_error_result_empty (b : Behavior) (c : Clock) (p : String)
    (d : DocumentData) (qs : List QuestionData)
    (h : (execute b c p d qs).1.status = "error") :
    (execute b c p d qs).1.questions = [] ∧
      (execute b c p d qs).1.aggregatedScores = [] ∧
      ∃ e, (execute b c p d qs).1.error = some (fmtExc e) := by
  obtain ⟨hstat, -, -, -, herr, hque, -⟩ :=
    finalizeResult_fields c (executeBody b p (initialResult c p d) d qs).2
  have hagg :=
    finalizeResult_aggregated c
      (executeBody b p (initialResult c p d) d qs).2
  rw [execute_fst] at h ⊢
  rw [hstat] at h
  obtain ⟨herre, hq0, ha0⟩ := executeBody_error_fields b p _ d qs h
  refine ⟨?_, ?_, ?_⟩
  · rw [hque, hq0]; rfl
  · rw [hagg, if_neg, ha0]
    · rfl
    · intro hcon
      rw [h] at hcon
      exact absurd hcon.1 (by decide)
  · rw [herr]; exact herre

/-- Witness for C10: applied to a concrete failing ingest. -/
theorem c10_error_result_empty_witness :
    (execute behIngestFail sampleClock "p1" sampleDoc
          [sampleQuestion]).1.questions = [] ∧
      (execute behIngestFail sampleClock "p1" sampleDoc
            [sampleQuestion]).1.aggregatedScores = [] ∧
      ∃ e,
        (execute behIngestFail sampleClock "p1" sampleDoc
              [sampleQuestion]).1.error = some (fmtExc e) :=
  c10_error_result_empty behIngestFail sampleClock "p1" sampleDoc
    [sampleQuestion] rfl

/-- C5 (amended): a success `ProviderResult` has exactly one
`QuestionResult` per input question, in order, and every
`QuestionResult` carries the same batch-level score map returned by the
scoring service, which is non-empty whenever that batch map is; the
result's aggregated scores are that same batch map with the
`duration_seconds` pseudo-metric appended when the map is non-empty
(so the final aggregated scores differ from the per-question copies by
exactly that appended key; see the counterexample). -/
theorem c5_success_scores (b : Behavior) (c : Clock) (p : String)
    (d : DocumentData) (qs : List QuestionData)
    (h : (execute b c p d qs).1.status = "success") :
    ∃ scores : ScoreMap,
      (execute b c p d qs).1.questions.length = qs.length ∧
        (execute b c p d qs).1.questions.map (fun qr => qr.questionId) =
          qs.map (fun q => q.questionId) ∧
        (∀ qr ∈ (execute b c p d qs).1.questions,
          qr.evaluationScores = scores) ∧
        (execute b c p d qs).1.aggregatedScores =
          (if scores = [] then []
            else
              dictInsert scores "duration_seconds"
                (.val (c.tEnd - c.tStart))) ∧
        (scores ≠ [] →
          ∀ qr ∈ (execute b c p d qs).1.questions,
            qr.evaluationScores ≠ []) := by
  obtain ⟨hstat, -, -, -, -, hque, -⟩ :=
    finalizeResult_fields c (executeBody b p (initialResult c p d) d qs).2
  have hagg :=
    finalizeResult_aggregated c
      (executeBody b p (initialResult c p d) d qs).2
  rw [execute_fst] at h ⊢
  rw [hstat] at h
  obtain ⟨idx, qEvs, qrs, samples, scores, -, hqr, -, hshape⟩ :=
    executeBody_success b p _ d qs h
  obtain ⟨hlen, hids⟩ := runQueries_ok b p idx qs qEvs qrs samples hqr
  refine ⟨scores, ?_, ?_, ?_, ?_, ?_⟩
  · rw [hque, hshape]
    simpa using hlen
  · rw [hque, hshape]
    simpa using hids
  · rw [hque, hshape]
    intro qr hqrm
    simp only [List.mem_map] at hqrm
    obtain ⟨a, -, rfl⟩ := hqrm
    rfl
  · rw [hagg, hshape]
    by_cases hsc : scores = []
    · subst hsc
      simp
    · simp [hsc]
  · intro hsc qr hqrm
    rw [hque, hshape] at hqrm
    simp only [List.mem_map] at hqrm
    obtain ⟨a, -, rfl⟩ := hqrm
    simpa using hsc

/-- Witness for C5: the amended theorem applied to a concrete
successful run with one question and one metric. -/
theorem c5_success_scores_witness :
    ∃ scores : ScoreMap,
      (execute behOK sampleClock "p1" sampleDoc
            [sampleQuestion]).1.questions.length = 1 ∧
        (execute behOK sampleClock "p1" sampleDoc
              [sampleQuestion]).1.questions.map (fun qr => qr.questionId) =
          [sampleQuestion].map (fun q => q.questionId) ∧
        (∀ qr ∈
            (execute behOK sampleClock "p1" sampleDoc
                [sampleQuestion]).1.questions,
          qr.evaluationScores = scores) ∧
        (execute behOK sampleClock "p1" sampleDoc
              [sampleQuestion]).1.aggregatedScores =
          (if scores = [] then []
            else
              dictInsert scores "duration_seconds"
                (.val (sampleClock.tEnd - sampleClock.tStart))) ∧
        (scores ≠ [] →
          ∀ qr ∈
              (execute behOK sampleClock "p1" sampleDoc
                  [sampleQuestion]).1.questions,
            qr.evaluationScores ≠ []) :=
  c5_success_scores behOK sampleClock "p1" sampleDoc [sampleQuestion] rfl

/-- Counterexample for C5 as stated: in a concrete successful run the
per-question evaluation scores are the bare batch map while the stored
aggregated scores additionally carry the duration_seconds pseudo-metric,
so the two are not equal; and with a scoring service returning an empty
batch map, a success result has empty (not non-empty) per-question
evaluation scores. -/
theorem c5_counterexample :
    (execute behOK sampleClock "p1" sampleDoc
          [sampleQuestion]).1.aggregatedScores =
        [("faithfulness", .val (9 / 10)),
          ("duration_seconds",
            .val (sampleClock.tEnd - sampleClock.tStart))] ∧
      (execute behOK sampleClock "p1" sampleDoc
            [sampleQuestion]).1.questions.map
          (fun qr => qr.evaluationScores) =
        [[("faithfulness", .val (9 / 10))]] ∧
      ([[("faithfulness", Score.val (9 / 10))]] :
          List ScoreMap) ≠
        [[("faithfulness", .val (9 / 10)),
          ("duration_seconds",
            .val (sampleClock.tEnd - sampleClock.tStart))]] ∧
      (execute behEmptyScores sampleClock "p1" sampleDoc
            [sampleQuestion]).1.status = "success" ∧
      (execute behEmptyScores sampleClock "p1" sampleDoc
            [sampleQuestion]).1.questions.map
          (fun qr => qr.evaluationScores) =
        [[]] := by
  refine ⟨rfl, rfl, ?_, rfl, rfl⟩
  simp

/-- C4: the batch scoring call is retried up to exactly 3 attempts with
a fixed 2 second delay between attempts, retrying when the call raises
or when the returned scores contain a NaN value; a first attempt that
returns NaN-free scores is not retried; on the final attempt remaining
NaN values are replaced by 0.0.  Concretely: with a stub returning NaN
for the metric on the first two calls and 0.7 on the third, the
ProviderResult shows 0.7 after three scoring calls separated by 2
second sleeps; with a stub that always returns NaN it shows 0.0. -/
theorem c4_scoring_retry :
    (∀ f : Nat → Except Exc ScoreMap,
        countScoreCalls (evalRetry f).1 ≤ 3) ∧
      (∀ (f : Nat → Except Exc ScoreMap) (scores : ScoreMap),
        f 0 = .ok scores → hasNan scores = false →
          evalRetry f = ([.scoreCall], .ok scores)) ∧
      (execute behNaNThenValid sampleClock "p1" sampleDoc
            [sampleQuestion]).1.aggregatedScores =
        [("faithfulness", .val (7 / 10)),
          ("duration_seconds",
            .val (sampleClock.tEnd - sampleClock.tStart))] ∧
      (execute behNaNThenValid sampleClock "p1" sampleDoc
            [sampleQuestion]).2 =
        [.provAcquire, .ingestCall, .queryCall "q1", .ragasAcquire,
          .scoreCall, .sleepCall 2, .scoreCall, .sleepCall 2, .scoreCall,
          .ragasRelease, .provRelease] ∧
      (execute behNaNAlways sampleClock "p1" sampleDoc
            [sampleQuestion]).1.aggregatedScores =
        [("faithfulness", .val 0),
          ("duration_seconds",
            .val (sampleClock.tEnd - sampleClock.tStart))] := by
  refine ⟨?_, ?_, rfl, rfl, rfl⟩
  · intro f
    exact countScoreCalls_evalRetryGo f maxRetries 0
  · intro f scores h1 h2
    simp [evalRetry, evalRetryGo, h1, h2]

/-- Witness for C4: the no-retry clause applied to a concrete stub that
returns a valid score on the first attempt. -/
theorem c4_scoring_retry_witness :
    evalRetry evalFnValid = ([.scoreCall], .ok [("m", .val 1)]) :=
  c4_scoring_retry.2.1 evalFnValid [("m", .val 1)] rfl rfl

theorem runQueries_events (b : Behavior) (p i : String) :
    ∀ (qs : List QuestionData) (e : Ev),
      e ∈ (runQueries b p i qs).1 → ∃ qid, e = .queryCall qid := by
  intro qs
  induction qs with
  | nil => intro e he; simp [runQueries] at he
  | cons q rest ih =>
      intro e he
      simp only [runQueries] at he
      cases hq : b.query q.question i with
      | error e0 =>
          rw [hq] at he
          simp at he
          exact ⟨q.questionId, he⟩
      | ok resp =>
          rw [hq] at he
          rcases hr : runQueries b p i rest with ⟨evs0, res0⟩
          rw [hr] at he
          simp at he
          rcases he with he | he
          · exact ⟨q.questionId, he⟩
          · exact ih e (by rw [hr]; exact he)

theorem evalRetryGo_events (f : Nat → Except Exc ScoreMap) :
    ∀ (fuel attempt : Nat) (e : Ev),
      e ∈ (evalRetryGo f fuel attempt).1 →
        e = .scoreCall ∨ ∃ t, e = .sleepCall t := by
  intro fuel
  induction fuel with
  | zero => intro attempt e he; simp [evalRetryGo] at he
  | succ n ih =>
      intro attempt e he
      simp only [evalRetryGo] at he
      cases hf : f attempt with
      | ok scores =>
          rw [hf] at he
          dsimp only at he
          by_cases hn : hasNan scores = true
          · rw [if_pos hn] at he
            by_cases ha : attempt < maxRetries - 1
            · rw [if_pos ha] at he
              rcases hr : evalRetryGo f n (attempt + 1) with ⟨evs0, r0⟩
              rw [hr] at he
              simp at he
              rcases he with he | he | he
              · exact .inl he
              · exact .inr ⟨2, he⟩
              · exact ih (attempt + 1) e (by rw [hr]; exact he)
            · rw [if_neg ha] at he
              simp at he
              exact .inl he
          · rw [if_neg hn] at he
            simp at he
            exact .inl he
      | error e0 =>
          rw [hf] at he
          dsimp only at he
          by_cases ha : attempt < maxRetries - 1
          · rw [if_pos ha] at he
            rcases hr : evalRetryGo f n (attempt + 1) with ⟨evs0, r0⟩
            rw [hr] at he
            simp at he
            rcases he with he | he | he
            · exact .inl he
            · exact .inr ⟨2, he⟩
            · exact ih (attempt + 1) e (by rw [hr]; exact he)
          · rw [if_neg ha] at he
            simp at he
            exact .inl he

theorem runTrace_none (l : List Ev) : runTrace none l = none := by
  cases l <;> rfl

theorem runTrace_append (l1 l2 : List Ev) :
    ∀ s, runTrace s (l1 ++ l2) = runTrace (runTrace s l1) l2 := by
  induction l1 with
  | nil => intro s; cases s <;> simp [runTrace, runTrace_none]
  | cons e t ih =>
      intro s
      cases s with
      | none => simp [runTrace, runTrace_none]
      | some st => simpa [runTrace] using ih (stepEv st e)

theorem runTrace_queries (l : List Ev)
    (h : ∀ e ∈ l, ∃ qid, e = .queryCall qid) (s : SemState)
    (h1 : s.provDepth = 1) (h2 : s.ragasDepth = 0) :
    runTrace (some s) l = some s := by
  induction l with
  | nil => rfl
  | cons e t ih =>
      obtain ⟨qid, rfl⟩ := h e (List.mem_cons_self e t)
      have hstep : stepEv s (.queryCall qid) = some s := by
        simp [stepEv, h1, h2]
      rw [runTrace, hstep]
      exact ih (fun e he => h e (List.mem_cons_of_mem _ he))

theorem runTrace_scores (l : List Ev)
    (h : ∀ e ∈ l, e = .scoreCall ∨ ∃ t, e = .sleepCall t) (s : SemState)
    (h1 : s.provDepth = 1) (h2 : s.ragasDepth = 1) :
    runTrace (some s) l = some s := by
  induction l with
  | nil => rfl
  | cons e t ih =>
      have hstep : stepEv s e = some s := by
        rcases h e (List.mem_cons_self e t) with rfl | ⟨t0, rfl⟩ <;>
          simp [stepEv, h1, h2]
      rw [runTrace, hstep]
      exact ih (fun e he => h e (List.mem_cons_of_mem _ he))

theorem executeBody_trace (b : Behavior) (p : String)
    (r0 : ProviderResult) (d : DocumentData) (qs : List QuestionData) :
    (executeBody b p r0 d qs).1 = [.ingestCall] ∨
      (∃ qEvs,
        (executeBody b p r0 d qs).1 = .ingestCall :: qEvs ∧
          ∀ e ∈ qEvs, ∃ qid, e = Ev.queryCall qid) ∨
      (∃ qEvs sEvs,
        (executeBody b p r0 d qs).1 =
            .ingestCall :: qEvs ++ .ragasAcquire :: sEvs ++
              [.ragasRelease] ∧
          (∀ e ∈ qEvs, ∃ qid, e = Ev.queryCall qid) ∧
          ∀ e ∈ sEvs, e = Ev.scoreCall ∨ ∃ t, e = Ev.sleepCall t) := by
  unfold executeBody
  cases hi : b.ingest (buildDocument d) with
  | error e => exact .inl rfl
  | ok idx =>
      dsimp only
      rcases hq : runQueries b p idx qs with ⟨qEvs, qres⟩
      · have hqe : ∀ e ∈ qEvs, ∃ qid, e = Ev.queryCall qid := by
          intro e he
          exact runQueries_events b p idx qs e (by rw [hq]; exact he)
        cases qres with
        | error e => exact .inr (.inl ⟨qEvs, rfl, hqe⟩)
        | ok pr =>
            obtain ⟨qrs, samples⟩ := pr
            have hse :
                ∀ e ∈ (evalRetry (b.evaluate samples)).1,
                  e = Ev.scoreCall ∨ ∃ t, e = Ev.sleepCall t :=
              fun e he =>
                evalRetryGo_events (b.evaluate samples) maxRetries 0 e he
            cases hs : (evalRetry (b.evaluate samples)).2 with
            | error e =>
                refine .inr (.inr
                  ⟨qEvs, (evalRetry (b.evaluate samples)).1, ?_, hqe, hse⟩)
                simp [hs]
            | ok scores =>
                refine .inr (.inr
                  ⟨qEvs, (evalRetry (b.evaluate samples)).1, ?_, hqe, hse⟩)
                simp [hs]

/-- C7: on every execution path of `execute`, the emitted trace obeys
the permit discipline: the provider permit is acquired exactly once,
before ingest, and released exactly once at exit with no double release;
ingest and all queries run while it is held and outside the scoring
permit; the scoring permit is acquired at most once, only around the
scoring calls and retry sleeps, and is released when scoring finishes,
before the provider permit is released; neither permit is leaked on any
failure path. -/
theorem c7_permit_discipline (b : Behavior) (c : Clock) (p : String)
    (d : DocumentData) (qs : List QuestionData) :
    traceOK (execute b c p d qs).2 = true := by
  rw [execute_snd]
  rcases executeBody_trace b p (initialResult c p d) d qs with
    htr | ⟨qEvs, htr, hqe⟩ | ⟨qEvs, sEvs, htr, hqe, hse⟩
  · rw [htr]; rfl
  · rw [htr]
    unfold traceOK
    have h1 :
        runTrace (some ⟨0, 0, 0, 0⟩)
            (Ev.provAcquire :: (Ev.ingestCall :: qEvs) ++
              [Ev.provRelease]) =
          runTrace (some ⟨1, 0, 1, 0⟩) (qEvs ++ [Ev.provRelease]) := by
      rfl
    rw [h1, runTrace_append, runTrace_queries qEvs hqe _ rfl rfl]
    rfl
  · rw [htr]
    unfold traceOK
    have h1 :
        Ev.provAcquire ::
            (Ev.ingestCall :: qEvs ++ Ev.ragasAcquire :: sEvs ++
              [Ev.ragasRelease]) ++ [Ev.provRelease] =
          [Ev.provAcquire, Ev.ingestCall] ++
            (qEvs ++
              ([Ev.ragasAcquire] ++
                (sEvs ++ [Ev.ragasRelease, Ev.provRelease]))) := by
      simp
    rw [h1, runTrace_append, runTrace_append, runTrace_append]
    have h2 :
        runTrace (some ⟨0, 0, 0, 0⟩)
            [Ev.provAcquire, Ev.ingestCall] = some ⟨1, 0, 1, 0⟩ := rfl
    rw [h2, runTrace_queries qEvs hqe _ rfl rfl]
    have h3 :
        runTrace (some ⟨1, 0, 1, 0⟩) [Ev.ragasAcquire] =
          some ⟨1, 1, 1, 1⟩ := rfl
    rw [h3, runTrace_append, runTrace_scores sEvs hse _ rfl rfl]
    rfl

theorem createTaskCombinations_error
    (questionsByDoc : Dict (List QuestionData)) (providers : List String) :
    ∀ docs : List DocumentData,
      ((∃ msg,
          createTaskCombinations docs questionsByDoc providers =
            .error msg) ↔
        ∃ d ∈ docs, alookup questionsByDoc d.docId = none) := by
  intro docs
  induction docs with
  | nil => simp [createTaskCombinations]
  | cons doc rest ih =>
      cases hl : alookup questionsByDoc doc.docId with
      | none =>
          simp only [createTaskCombinations, hl]
          constructor
          · intro _
            exact ⟨doc, List.mem_cons_self _ _, hl⟩
          · intro _
            exact ⟨doc.docId, rfl⟩
      | some qs =>
          simp only [createTaskCombinations, hl]
          cases hr :
              createTaskCombinations rest questionsByDoc providers with
          | error msg =>
              constructor
              · intro _
                obtain ⟨d, hd, hdl⟩ := ih.mp ⟨msg, hr⟩
                exact ⟨d, List.mem_cons_of_mem _ hd, hdl⟩
              · intro _
                exact ⟨msg, rfl⟩
          | ok ts =>
              constructor
              · rintro ⟨msg, hmsg⟩
                simp [Except.map] at hmsg
              · rintro ⟨d, hd, hdl⟩
                rcases List.mem_cons.mp hd with rfl | hd2
                · rw [hl] at hdl
                  cases hdl
                · obtain ⟨msg, hmsg⟩ := ih.mpr ⟨d, hd2, hdl⟩
                  rw [hr] at hmsg
                  cases hmsg

theorem createTaskCombinations_ok
    (questionsByDoc : Dict (List QuestionData)) (providers : List String) :
    ∀ docs : List DocumentData,
      (∀ d ∈ docs, alookup questionsByDoc d.docId ≠ none) →
        createTaskCombinations docs questionsByDoc providers =
          .ok
            (docs.flatMap
              (fun d =>
                providers.map
                  (fun p =>
                    Task.mk p d
                      ((alookup questionsByDoc d.docId).getD [])))) := by
  intro docs
  induction docs with
  | nil => intro h; rfl
  | cons doc rest ih =>
      intro h
      cases hl : alookup questionsByDoc doc.docId with
      | none => exact absurd hl (h doc (List.mem_cons_self _ _))
      | some qs =>
          simp only [createTaskCombinations, hl]
          rw [ih (fun d hd => h d (List.mem_cons_of_mem _ hd))]
          simp [Except.map, hl]

/-- C8: task generation is a pure function producing exactly one task
per (document, provider) pair, document order outer and provider order
inner, each task carrying the question list of its document; it fails
(with the KeyError of the source) exactly when some document id is
missing from the question map. -/
theorem c8_task_generation (docs : List DocumentData)
    (questionsByDoc : Dict (List QuestionData))
    (providers : List String) :
    ((∃ msg,
        createTaskCombinations docs questionsByDoc providers =
          .error msg) ↔
      ∃ d ∈ docs, alookup questionsByDoc d.docId = none) ∧
      ((∀ d ∈ docs, alookup questionsByDoc d.docId ≠ none) →
        createTaskCombinations docs questionsByDoc providers =
          .ok
            (docs.flatMap
              (fun d =>
                providers.map
                  (fun p =>
                    Task.mk p d
                      ((alookup questionsByDoc d.docId).getD []))))) :=
  ⟨createTaskCombinations_error questionsByDoc providers docs,
    createTaskCombinations_ok questionsByDoc providers docs⟩

/-- Witness for C8: one document and two providers yield the two tasks
in document-outer, provider-inner order, each carrying the question
list of the document. -/
theorem c8_task_generation_witness :
    createTaskCombinations [sampleDoc] [("d1", [sampleQuestion])]
        ["p1", "p2"] =
      .ok
        [Task.mk "p1" sampleDoc [sampleQuestion],
          Task.mk "p2" sampleDoc [sampleQuestion]] :=
  ((c8_task_generation [sampleDoc] [("d1", [sampleQuestion])]
        ["p1", "p2"]).2
      (by decide)).trans rfl

theorem dlookup2_mapInsert2_self (m : Dict (Dict ProviderResult))
    (docId p : String) (r : ProviderResult) :
    dlookup2 (mapInsert2 m docId p r) docId p = some r := by
  induction m with
  | nil => simp [mapInsert2, dlookup2, alookup, alookup_dictInsert_self]
  | cons hd rest ih =>
      obtain ⟨k, inner⟩ := hd
      by_cases hk : k = docId
      · simp [mapInsert2, hk, dlookup2, alookup, alookup_dictInsert_self]
      · simpa [mapInsert2, hk, dlookup2, alookup] using ih

theorem dlookup2_mapInsert2_ne (m : Dict (Dict ProviderResult))
    (docId p docId' p' : String) (r : ProviderResult)
    (h : docId' ≠ docId ∨ p' ≠ p) :
    dlookup2 (mapInsert2 m docId p r) docId' p' = dlookup2 m docId' p' := by
  induction m with
  | nil =>
      by_cases hd : docId = docId'
      · subst hd
        rcases h with h | h
        · exact absurd rfl h
        · have hp : ¬p = p' := fun he => h he.symm
          simp [mapInsert2, dlookup2, alookup, hp]
      · simp [mapInsert2, dlookup2, alookup, hd]
  | cons hd rest ih =>
      obtain ⟨k, inner⟩ := hd
      by_cases hk : k = docId
      · subst hk
        by_cases hk' : k = docId'
        · subst hk'
          rcases h with h | h
          · exact absurd rfl h
          · simp [mapInsert2, dlookup2, alookup,
              alookup_dictInsert_ne inner p p' r h]
        · simp [mapInsert2, dlookup2, alookup, hk']
      · by_cases hk' : k = docId'
        · subst hk'
          simp [mapInsert2, hk, dlookup2, alookup]
        · simpa [mapInsert2, hk, dlookup2, alookup, hk'] using ih

theorem storedFor_cons (et : ExecutedTask) (rest : List ExecutedTask)
    (docId p : String) :
    storedFor (et :: rest) docId p =
      (if et.task.doc.docId = docId ∧ et.task.provider = p ∧
          et.threadExc = none
        then [et.result] else []) ++ storedFor rest docId p := by
  by_cases h :
      et.task.doc.docId = docId ∧ et.task.provider = p ∧
        et.threadExc = none <;>
    simp [storedFor, List.filterMap_cons, h]

theorem lastWrite_cons (o : Option ProviderResult) (r : ProviderResult)
    (l : List ProviderResult) :
    lastWrite o (r :: l) = lastWrite (some r) l := rfl

theorem collectResults_map (docId p : String) :
    ∀ (l : List ExecutedTask) (m : Dict (Dict ProviderResult))
      (store : Store),
      dlookup2 (collectResults l (m, store)).1 docId p =
        lastWrite (dlookup2 m docId p) (storedFor l docId p) := by
  intro l
  induction l with
  | nil => intro m store; rfl
  | cons et rest ih =>
      intro m store
      rw [storedFor_cons]
      cases hte : et.threadExc with
      | some e =>
          rw [if_neg (by simp), List.nil_append]
          simp only [collectResults, hte]
          exact ih m store
      | none =>
          simp only [collectResults, hte]
          by_cases hp :
              et.task.doc.docId = docId ∧ et.task.provider = p
          · rw [if_pos ⟨hp.1, hp.2, trivial⟩, List.cons_append,
              List.nil_append, lastWrite_cons, ih, hp.1, hp.2,
              dlookup2_mapInsert2_self]
          · rw [if_neg (fun hx => hp ⟨hx.1, hx.2.1⟩), List.nil_append, ih]
            have hne :
                docId ≠ et.task.doc.docId ∨ p ≠ et.task.provider := by
              rcases Decidable.not_and_iff_or_not.mp hp with hx | hx
              · exact .inl (fun he => hx he.symm)
              · exact .inr (fun he => hx he.symm)
            rw [dlookup2_mapInsert2_ne _ _ _ _ _ _ hne]

theorem storeAdd_mem (store : Store) (key key' : String × String) :
    key' ∈ storeAdd store key ↔ key' ∈ store ∨ key' = key := by
  unfold storeAdd
  by_cases h : key ∈ store
  · rw [if_pos h]
    constructor
    · exact .inl
    · rintro (h' | rfl)
      · exact h'
      · exact h
  · rw [if_neg h]
    simp

theorem collectResults_store (key : String × String) :
    ∀ (l : List ExecutedTask) (m : Dict (Dict ProviderResult))
      (store : Store),
      (key ∈ (collectResults l (m, store)).2 ↔
        key ∈ store ∨ storedFor l key.1 key.2 ≠ []) := by
  intro l
  induction l with
  | nil =>
      intro m store
      simp [collectResults, storedFor]
  | cons et rest ih =>
      intro m store
      rw [storedFor_cons]
      cases hte : et.threadExc with
      | some e =>
          rw [if_neg (by simp), List.nil_append]
          simp only [collectResults, hte]
          exact ih m store
      | none =>
          simp only [collectResults, hte]
          rw [ih]
          rw [storeAdd_mem]
          by_cases hp :
              et.task.doc.docId = key.1 ∧ et.task.provider = key.2
          · rw [if_pos ⟨hp.1, hp.2, trivial⟩]
            have hkey : key = (et.task.doc.docId, et.task.provider) := by
              rw [hp.1, hp.2]
            simp [hkey]
          · rw [if_neg (fun hx => hp ⟨hx.1, hx.2.1⟩)]
            have hkey : ¬key = (et.task.doc.docId, et.task.provider) := by
              intro hk
              exact hp ⟨by rw [hk], by rw [hk]⟩
            simp only [List.nil_append, hkey, or_false]

theorem storedFor_executeTasks_nil (w : World) (docId p : String) :
    ∀ ts : List Task,
      (∀ t ∈ ts, ¬(t.doc.docId = docId ∧ t.provider = p)) →
        storedFor (executeTasks w ts) docId p = [] := by
  intro ts
  induction ts with
  | nil => intro h; rfl
  | cons t0 rest ih =>
      intro h
      simp only [executeTasks, List.map_cons]
      rw [storedFor_cons]
      have hcond := h t0 (List.mem_cons_self _ _)
      rw [if_neg (fun hx => hcond ⟨hx.1, hx.2.1⟩), List.nil_append]
      exact ih (fun t ht => h t (List.mem_cons_of_mem _ ht))

theorem storedFor_executeTasks (w : World) :
    ∀ ts : List Task,
      ts.Pairwise (fun a b => a.pairKey ≠ b.pairKey) →
        ∀ t ∈ ts,
          storedFor (executeTasks w ts) t.doc.docId t.provider =
            (match w.dispatchExc t.provider t.doc.docId with
              | none =>
                  [(execute (w.behaviorOf t.provider) w.clock t.provider
                      t.doc t.questions).1]
              | some _ => []) := by
  intro ts
  induction ts with
  | nil => intro _ t ht; cases ht
  | cons t0 rest ih =>
      intro hpw t ht
      obtain ⟨hhead, hrest⟩ := List.pairwise_cons.mp hpw
      simp only [executeTasks, List.map_cons]
      rw [storedFor_cons]
      have hrest_eq :
          storedFor
              (List.map
                (fun t =>
                  ({ task := t
                     threadExc := w.dispatchExc t.provider t.doc.docId
                     result :=
                       (execute (w.behaviorOf t.provider) w.clock
                           t.provider t.doc t.questions).1
                     trace :=
                       (execute (w.behaviorOf t.provider) w.clock
                           t.provider t.doc t.questions).2 } :
                    ExecutedTask))
                rest)
              t.doc.docId t.provider =
            storedFor (executeTasks w rest) t.doc.docId t.provider := rfl
      rcases List.mem_cons.mp ht with rfl | ht2
      · have hnil :
            storedFor (executeTasks w rest) t.doc.docId t.provider =
              [] := by
          refine storedFor_executeTasks_nil w _ _ rest ?_
          intro t' ht' hx
          apply hhead t' ht'
          simp only [Task.pairKey]
          rw [hx.1, hx.2]
        cases hdis : w.dispatchExc t.provider t.doc.docId with
        | none =>
            rw [if_pos ⟨rfl, rfl, by simp [hdis]⟩, hrest_eq, hnil]
            simp
        | some e =>
            rw [if_neg ?_, List.nil_append, hrest_eq, hnil]
            · rintro ⟨-, -, hx⟩
              simp [hdis] at hx
      · have hcond :
            ¬(t0.doc.docId = t.doc.docId ∧ t0.provider = t.provider ∧
              (w.dispatchExc t0.provider t0.doc.docId : Option Exc) =
                none) := by
          rintro ⟨h1, h2, -⟩
          apply hhead t ht2
          simp only [Task.pairKey]
          rw [h1, h2]
        rw [if_neg ?_, List.nil_append, hrest_eq]
        · exact ih hrest t ht2
        · rintro ⟨h1, h2, h3⟩
          simp only at h1 h2 h3
          exact hcond ⟨h1, h2, h3⟩

theorem tasks_pairwise (questionsByDoc : Dict (List QuestionData))
    (providers : List String) (hprovs : providers.Nodup) :
    ∀ docs : List DocumentData,
      (docs.map (fun d => d.docId)).Nodup →
        (docs.flatMap
            (fun d =>
              providers.map
                (fun p =>
                  Task.mk p d
                    ((alookup questionsByDoc d.docId).getD
                      [])))).Pairwise
          (fun a b => a.pairKey ≠ b.pairKey) := by
  intro docs
  induction docs with
  | nil => intro _; simp
  | cons d ds ih =>
      intro hnd
      rw [List.map_cons, List.nodup_cons] at hnd
      obtain ⟨hd1, hd2⟩ := hnd
      rw [List.flatMap_cons, List.pairwise_append]
      refine ⟨?_, ih hd2, ?_⟩
      · refine List.Pairwise.map _ ?_ hprovs
        intro a b hab
        simpa [Task.pairKey] using hab
      · intro x hx y hy
        obtain ⟨p, hp, rfl⟩ := List.mem_map.mp hx
        obtain ⟨d', hd', hy2⟩ := List.mem_flatMap.mp hy
        obtain ⟨p', hp', rfl⟩ := List.mem_map.mp hy2
        simp only [Task.pairKey]
        intro hcon
        have hdd : d.docId = d'.docId := congrArg Prod.fst hcon
        exact hd1 (List.mem_map.mpr ⟨d', hd', hdd.symm⟩)

/-- C1 (amended): with resume disabled, `run_benchmark` raises nothing
to its caller, and for every scheduled (provider, document) pair whose
future resolves normally exactly one `ProviderResult` exists afterwards,
namely the one returned by the executor, stored in the results map and
persisted, identically for error and success results; for a pair whose
dispatch thread-fails, however, the failure is caught and logged but NO
`ProviderResult` is stored or persisted: the pair is simply absent
(see the counterexample refuting the claim as stated). -/
theorem c1_one_result_per_pair (w : World) (docs : List DocumentData)
    (questionsByDoc : Dict (List QuestionData)) (providers : List String)
    (store0 : Store) (tasks : List Task)
    (hdocs : (docs.map (fun d => d.docId)).Nodup)
    (hprovs : providers.Nodup)
    (htasks :
      createTaskCombinations docs questionsByDoc providers = .ok tasks) :
    runBenchmark w docs questionsByDoc providers false store0 =
        .ok (runScheduled w docs questionsByDoc false store0 tasks) ∧
      ∀ t ∈ tasks,
        (w.dispatchExc t.provider t.doc.docId = none →
          dlookup2
              (runScheduled w docs questionsByDoc false store0
                  tasks).docResultsMap
              t.doc.docId t.provider =
            some
              (execute (w.behaviorOf t.provider) w.clock t.provider
                  t.doc t.questions).1 ∧
            (t.doc.docId, t.provider) ∈
              (runScheduled w docs questionsByDoc false store0
                  tasks).store) ∧
        (∀ e, w.dispatchExc t.provider t.doc.docId = some e →
          dlookup2
              (runScheduled w docs questionsByDoc false store0
                  tasks).docResultsMap
              t.doc.docId t.provider = none ∧
            ((t.doc.docId, t.provider) ∈
                (runScheduled w docs questionsByDoc false store0
                    tasks).store ↔
              (t.doc.docId, t.provider) ∈ store0)) := by
  have hrun :
      runBenchmark w docs questionsByDoc providers false store0 =
        .ok (runScheduled w docs questionsByDoc false store0 tasks) := by
    unfold runBenchmark
    rw [htasks]
    rfl
  refine ⟨hrun, ?_⟩
  have hall : ∀ d ∈ docs, alookup questionsByDoc d.docId ≠ none := by
    intro d hd hnone
    obtain ⟨msg, hmsg⟩ :=
      (createTaskCombinations_error questionsByDoc providers docs).mpr
        ⟨d, hd, hnone⟩
    rw [htasks] at hmsg
    cases hmsg
  have hshape := createTaskCombinations_ok questionsByDoc providers docs hall
  rw [htasks] at hshape
  have htasks_eq :
      tasks =
        docs.flatMap
          (fun d =>
            providers.map
              (fun p =>
                Task.mk p d
                  ((alookup questionsByDoc d.docId).getD []))) := by
    injection hshape
  have hpw : tasks.Pairwise (fun a b => a.pairKey ≠ b.pairKey) := by
    rw [htasks_eq]
    exact tasks_pairwise questionsByDoc providers hprovs docs hdocs
  have hfil :
      tasks.filter
          (fun t =>
            !(shouldSkipTask false store0 t.provider t.doc.docId)) =
        tasks := by
    simp [shouldSkipTask]
  have hmapp :
      (runScheduled w docs questionsByDoc false store0
          tasks).docResultsMap =
        (collectResults (executeTasks w tasks) ([], store0)).1 := by
    simp [runScheduled, hfil]
  have hstp :
      (runScheduled w docs questionsByDoc false store0 tasks).store =
        (collectResults (executeTasks w tasks) ([], store0)).2 := by
    simp [runScheduled, hfil]
  intro t ht
  constructor
  · intro hdis
    constructor
    · rw [hmapp, collectResults_map,
        storedFor_executeTasks w tasks hpw t ht, hdis]
      rfl
    · rw [hstp, collectResults_store]
      right
      have hsf :=
        storedFor_executeTasks w tasks hpw t ht
      rw [hdis] at hsf
      simp only [] at hsf
      rw [show ((t.doc.docId, t.provider) : String × String).1 =
          t.doc.docId from rfl,
        show ((t.doc.docId, t.provider) : String × String).2 =
          t.provider from rfl, hsf]
      simp
  · intro e hdis
    have hsf := storedFor_executeTasks w tasks hpw t ht
    rw [hdis] at hsf
    simp only [] at hsf
    constructor
    · rw [hmapp, collectResults_map, hsf]
      rfl
    · rw [hstp, collectResults_store]
      rw [show ((t.doc.docId, t.provider) : String × String).1 =
          t.doc.docId from rfl,
        show ((t.doc.docId, t.provider) : String × String).2 =
          t.provider from rfl, hsf]
      simp

/-- Counterexample for C1 as stated: with resume disabled and a single
scheduled pair whose future raises at collection (the thread_failed
case), `run_benchmark` still returns normally, but no `ProviderResult`
with status error is created, stored or persisted for the pair: the
results map has no entry for it, the store stays empty, and no
`DocumentResult` is built — instead of the exactly one error result the
claim requires. -/
theorem c1_counterexample :
    (runBenchmark worldThreadFail [sampleDoc] [("d1", [sampleQuestion])]
          ["p1"] false []).map
        (fun o =>
          (dlookup2 o.docResultsMap "d1" "p1", o.store, o.results)) =
      .ok (none, [], []) := rfl

/-- Witness for C1: the amended theorem applied to a concrete
one-document, one-provider run where dispatch succeeds. -/
theorem c1_one_result_per_pair_witness :
    runBenchmark worldOK [sampleDoc] [("d1", [sampleQuestion])] ["p1"]
        false [] =
      .ok
        (runScheduled worldOK [sampleDoc] [("d1", [sampleQuestion])]
          false [] [Task.mk "p1" sampleDoc [sampleQuestion]]) :=
  (c1_one_result_per_pair worldOK [sampleDoc]
      [("d1", [sampleQuestion])] ["p1"] []
      [Task.mk "p1" sampleDoc [sampleQuestion]] (by decide) (by decide)
      rfl).1

theorem buildDocResults_empty (questionsByDoc : Dict (List QuestionData))
    (ts : String) :
    ∀ docs : List DocumentData,
      buildDocResults questionsByDoc ts [] docs = [] := by
  intro docs
  induction docs with
  | nil => rfl
  | cons d ds ih => simp [buildDocResults, alookup, ih]

/-- C2 (amended): with resume enabled and every scheduled pair already
persisted, `run_benchmark` skips every task and performs zero ingest,
query or scoring calls (the event trace is empty); but the prior
persisted ProviderResults of skipped tasks are NOT loaded back: the
results map stays empty, no DocumentResult is built, the run summary
carries an empty DocumentResults list and an empty cross-document
average, so a fully resumed second run is not structurally identical to
the first (see the counterexample refuting the idempotence claim). -/
theorem c2_resume_skips_all (w : World) (docs : List DocumentData)
    (questionsByDoc : Dict (List QuestionData)) (providers : List String)
    (store0 : Store) (tasks : List Task)
    (htasks :
      createTaskCombinations docs questionsByDoc providers = .ok tasks)
    (hall : ∀ t ∈ tasks, (t.doc.docId, t.provider) ∈ store0) :
    runBenchmark w docs questionsByDoc providers true store0 =
      .ok
        { docResultsMap := []
          store := store0
          results := []
          overallWinner := []
          events := []
          numDocs := docs.length } := by
  have hfil :
      tasks.filter
          (fun t =>
            !(shouldSkipTask true store0 t.provider t.doc.docId)) =
        [] := by
    rw [List.filter_eq_nil_iff]
    intro t ht
    simp [shouldSkipTask, hall t ht]
  unfold runBenchmark
  rw [htasks]
  show Except.ok (runScheduled w docs questionsByDoc true store0 tasks) =
    _
  unfold runScheduled
  rw [hfil]
  dsimp only
  rw [show collectResults (executeTasks w []) ([], store0) =
      ([], store0) from rfl]
  dsimp only
  rw [buildDocResults_empty]
  rfl

/-- Witness for C2: the amended theorem applied to a run where the
single pair is already persisted. -/
theorem c2_resume_skips_all_witness :
    runBenchmark worldOK [sampleDoc] [("d1", [sampleQuestion])] ["p1"]
        true [("d1", "p1")] =
      .ok
        { docResultsMap := []
          store := [("d1", "p1")]
          results := []
          overallWinner := []
          events := []
          numDocs := 1 } :=
  c2_resume_skips_all worldOK [sampleDoc] [("d1", [sampleQuestion])]
    ["p1"] [("d1", "p1")] [Task.mk "p1" sampleDoc [sampleQuestion]] rfl
    (by decide)

/-- Counterexample for C2 as stated: with resume enabled throughout and
identical inputs, a first run from an empty store produces one
DocumentResult and performs external calls, while the second run over
the store the first run left behind performs zero calls but returns an
empty DocumentResults list — not structurally identical to the first
run's. -/
theorem c2_counterexample :
    (runBenchmark worldOK [sampleDoc] [("d1", [sampleQuestion])] ["p1"]
          true []).map (fun o => (o.results.length, o.store)) =
        .ok (1, [("d1", "p1")]) ∧
      (runBenchmark worldOK [sampleDoc] [("d1", [sampleQuestion])]
            ["p1"] true [("d1", "p1")]).map
          (fun o => (o.results.length, o.events)) =
        .ok (0, []) :=
  ⟨rfl, rfl⟩

theorem alookup_eq_none {α : Type} :
    ∀ (l : Dict α) (k : String), k ∉ l.map Prod.fst → alookup l k = none := by
  intro l
  induction l with
  | nil => intro k _; rfl
  | cons e rest ih =>
      intro k hk
      rw [List.map_cons, List.mem_cons] at hk
      push_neg at hk
      simp only [alookup]
      rw [if_neg (fun he => hk.1 he.symm)]
      exact ih k hk.2

theorem alookup_appendAt_self (inner : Dict (List Score)) (m : String)
    (s : Score) :
    alookup (appendAt inner m s) m =
      some ((alookup inner m).getD [] ++ [s]) := by
  induction inner with
  | nil => simp [appendAt, alookup]
  | cons hd rest ih =>
      obtain ⟨k, l⟩ := hd
      by_cases hk : k = m
      · simp [appendAt, hk, alookup]
      · simp [appendAt, hk, alookup, ih]

theorem alookup_appendAt_ne (inner : Dict (List Score)) (m m' : String)
    (s : Score) (h : m' ≠ m) :
    alookup (appendAt inner m s) m' = alookup inner m' := by
  induction inner with
  | nil =>
      simp only [appendAt, alookup]
      rw [if_neg (fun he => h he.symm)]
  | cons hd rest ih =>
      obtain ⟨k, l⟩ := hd
      by_cases hk : k = m
      · subst hk
        simp only [appendAt, if_pos rfl, alookup]
        rw [if_neg (fun he => h he.symm), if_neg (fun he => h he.symm)]
      · simp only [appendAt, if_neg hk, alookup]
        by_cases hk' : k = m'
        · simp [hk']
        · simp [hk', ih]

theorem pmGet_appendAt2 (p m p' m' : String) (s : Score) :
    ∀ acc : Dict (Dict (List Score)),
      pmGet (appendAt2 acc p m s) p' m' =
        pmGet acc p' m' ++ (if p = p' ∧ m = m' then [s] else []) := by
  intro acc
  induction acc with
  | nil =>
      by_cases hp : p = p'
      · subst hp
        by_cases hm : m = m'
        · subst hm
          simp [appendAt2, pmGet, alookup]
        · simp [appendAt2, pmGet, alookup, hm,
            fun he : m = m' => hm he]
      · simp [appendAt2, pmGet, alookup, hp,
          fun he : p = p' => hp he]
  | cons hd rest ih =>
      obtain ⟨k, inner⟩ := hd
      by_cases hk : k = p
      · subst hk
        by_cases hk' : k = p'
        · subst hk'
          rw [show appendAt2 ((k, inner) :: rest) k m s =
              (k, appendAt inner m s) :: rest from by
              simp [appendAt2]]
          rw [show pmGet ((k, appendAt inner m s) :: rest) k m' =
              (alookup (appendAt inner m s) m').getD [] from by
              simp [pmGet, alookup]]
          rw [show pmGet ((k, inner) :: rest) k m' =
              (alookup inner m').getD [] from by
              simp [pmGet, alookup]]
          by_cases hm : m = m'
          · subst hm
            rw [alookup_appendAt_self]
            simp
          · rw [alookup_appendAt_ne inner m m' s
              (fun he => hm he.symm)]
            simp [hm]
        · rw [show appendAt2 ((k, inner) :: rest) k m s =
              (k, appendAt inner m s) :: rest from by
              simp [appendAt2]]
          rw [show pmGet ((k, appendAt inner m s) :: rest) p' m' =
              pmGet rest p' m' from by
              simp [pmGet, alookup, hk']]
          rw [show pmGet ((k, inner) :: rest) p' m' =
              pmGet rest p' m' from by
              simp [pmGet, alookup, hk']]
          have hnp : ¬(k = p' ∧ m = m') := fun hx => hk' hx.1
          simp [hnp]
      · by_cases hk' : k = p'
        · subst hk'
          simp only [appendAt2, if_neg hk, pmGet, alookup, if_pos rfl]
          have hnp : ¬(p = k ∧ m = m') := fun hx => hk hx.1.symm
          simp [hnp]
        · simp only [appendAt2, if_neg hk, pmGet, alookup,
            if_neg hk']
          exact ih

theorem pmGet_accumScores (p : String) :
    ∀ (scores : ScoreMap) (acc : Dict (Dict (List Score)))
      (p' m' : String),
      pmGet (accumScores p acc scores) p' m' =
        pmGet acc p' m' ++
          (if p = p' then scoreVals scores m' else []) := by
  intro scores
  induction scores with
  | nil =>
      intro acc p' m'
      by_cases hp : p = p' <;> simp [accumScores, scoreVals, hp]
  | cons e rest ih =>
      intro acc p' m'
      rw [show accumScores p acc (e :: rest) =
          accumScores p (appendAt2 acc p e.1 e.2) rest from rfl]
      rw [ih, pmGet_appendAt2]
      by_cases hp : p = p'
      · subst hp
        by_cases hm : e.1 = m' <;>
          simp [scoreVals, hm, List.append_assoc]
      · simp [hp]

theorem pmGet_accumDoc :
    ∀ (winner : Dict ScoreMap) (acc : Dict (Dict (List Score)))
      (p m : String),
      pmGet (accumDoc acc winner) p m =
        pmGet acc p m ++ docVals winner p m := by
  intro winner
  induction winner with
  | nil => intro acc p m; simp [accumDoc, docVals]
  | cons e rest ih =>
      intro acc p m
      rw [show accumDoc acc (e :: rest) =
          accumDoc (accumScores e.1 acc e.2) rest from rfl]
      rw [ih, pmGet_accumScores]
      by_cases hp : e.1 = p <;>
        simp [docVals, hp, List.append_assoc]

theorem pmGet_fold :
    ∀ (drs : List DocumentResult) (acc : Dict (Dict (List Score)))
      (p m : String),
      pmGet (drs.foldl (fun a dr => accumDoc a dr.winner) acc) p m =
        pmGet acc p m ++ runVals drs p m := by
  intro drs
  induction drs with
  | nil => intro acc p m; simp [runVals]
  | cons dr rest ih =>
      intro acc p m
      rw [List.foldl_cons, ih, pmGet_accumDoc]
      simp [runVals, List.append_assoc]

theorem alookup_map_snd {α β : Type} (f : α → β) :
    ∀ (l : Dict α) (k : String),
      alookup (l.map (fun e => (e.1, f e.2))) k =
        (alookup l k).map f := by
  intro l
  induction l with
  | nil => intro k; rfl
  | cons e rest ih =>
      intro k
      by_cases hk : e.1 = k
      · simp [alookup, hk]
      · simp [alookup, hk, ih]

theorem determineOverallWinner_lookup (drs : List DocumentResult)
    (p m : String) (hne : runVals drs p m ≠ []) :
    dlookup2 (determineOverallWinner drs) p m =
      some (avgScores (runVals drs p m)) := by
  have hget :
      pmGet (drs.foldl (fun a dr => accumDoc a dr.winner) []) p m =
        runVals drs p m := by
    rw [pmGet_fold]
    simp [pmGet, alookup]
  unfold determineOverallWinner
  have hacc_ne :
      drs.foldl (fun a dr => accumDoc a dr.winner)
          ([] : Dict (Dict (List Score))) ≠ [] := by
    intro h0
    rw [h0] at hget
    exact hne (hget.symm.trans rfl)
  rw [if_neg hacc_ne]
  cases hp :
      alookup (drs.foldl (fun a dr => accumDoc a dr.winner) []) p with
  | none =>
      exfalso
      apply hne
      rw [← hget]
      simp [pmGet, hp]
  | some inner =>
      cases hm : alookup inner m with
      | none =>
          exfalso
          apply hne
          rw [← hget]
          simp [pmGet, hp, hm]
      | some l =>
          have hl : l = runVals drs p m := by
            rw [← hget]
            simp [pmGet, hp, hm]
          unfold dlookup2
          rw [show (fun pe : String × Dict (List Score) =>
              (pe.1, pe.2.map (fun me => (me.1, avgScores me.2)))) =
              (fun pe : String × Dict (List Score) =>
                (pe.1,
                  (fun inner : Dict (List Score) =>
                    inner.map (fun me => (me.1, avgScores me.2)))
                    pe.2)) from rfl,
            alookup_map_snd, hp]
          show
            alookup (inner.map (fun me => (me.1, avgScores me.2))) m =
              some (avgScores (runVals drs p m))
          rw [show (fun me : String × List Score =>
              (me.1, avgScores me.2)) =
              (fun me : String × List Score =>
                (me.1, (fun l => avgScores l) me.2)) from rfl,
            alookup_map_snd, hm]
          rw [hl]
          rfl

theorem scoreVals_nodup (m : String) :
    ∀ sm : ScoreMap,
      (sm.map Prod.fst).Nodup →
        scoreVals sm m = (alookup sm m).toList := by
  intro sm
  induction sm with
  | nil => intro _; rfl
  | cons e rest ih =>
      intro hnd
      rw [List.map_cons, List.nodup_cons] at hnd
      obtain ⟨h1, h2⟩ := hnd
      by_cases hk : e.1 = m
      · have hrest : alookup rest m = none :=
          alookup_eq_none rest m (fun hmem => h1 (hk ▸ hmem))
        have hrest2 : scoreVals rest m = [] := by
          rw [ih h2, hrest]
          rfl
        simp [scoreVals, alookup, hk, hrest2]
      · simp [scoreVals, alookup, hk, ih h2]

theorem docVals_aggregate (p m : String) :
    ∀ prs : Dict ProviderResult,
      (prs.map Prod.fst).Nodup →
        docVals (aggregateProviderScores prs) p m =
          (match alookup prs p with
            | some r =>
                if r.status = "success" then
                  scoreVals r.aggregatedScores m
                else []
            | none => []) := by
  intro prs
  induction prs with
  | nil => intro _; rfl
  | cons pr rest ih =>
      intro hnd
      rw [List.map_cons, List.nodup_cons] at hnd
      obtain ⟨h1, h2⟩ := hnd
      by_cases hs : pr.2.status = "success"
      · rw [show aggregateProviderScores (pr :: rest) =
            (pr.1, pr.2.aggregatedScores) ::
              aggregateProviderScores rest from by
            simp [aggregateProviderScores, List.filterMap_cons, hs]]
        rw [show docVals
            ((pr.1, pr.2.aggregatedScores) ::
              aggregateProviderScores rest) p m =
            (if pr.1 = p then scoreVals pr.2.aggregatedScores m
              else []) ++
              docVals (aggregateProviderScores rest) p m from rfl]
        by_cases hp : pr.1 = p
        · have hrest : alookup rest p = none :=
            alookup_eq_none rest p (fun hmem => h1 (hp ▸ hmem))
          have hrest2 :
              docVals (aggregateProviderScores rest) p m = [] := by
            rw [ih h2, hrest]
          simp [alookup, hp, hs, hrest2]
        · simp [alookup, hp, ih h2]
      · rw [show aggregateProviderScores (pr :: rest) =
            aggregateProviderScores rest from by
            simp [aggregateProviderScores, List.filterMap_cons, hs]]
        rw [ih h2]
        by_cases hp : pr.1 = p
        · have hrest : alookup rest p = none :=
            alookup_eq_none rest p (fun hmem => h1 (hp ▸ hmem))
          simp [alookup, hp, hs, hrest]
        · simp [alookup, hp]

theorem alookup_mem {α : Type} :
    ∀ (l : Dict α) (k : String) (v : α),
      alookup l k = some v → (k, v) ∈ l := by
  intro l
  induction l with
  | nil => intro k v h; cases h
  | cons e rest ih =>
      intro k v h
      simp only [alookup] at h
      by_cases hk : e.1 = k
      · rw [if_pos hk] at h
        obtain ⟨k0, v0⟩ := e
        simp only at hk h
        injection h with h2
        subst hk
        subst h2
        exact List.mem_cons_self _ _
      · rw [if_neg hk] at h
        exact List.mem_cons_of_mem _ (ih k v h)

theorem runVals_filterMap (p m : String) :
    ∀ drs : List DocumentResult,
      (∀ dr ∈ drs, dr.winner = aggregateProviderScores dr.providers) →
      (∀ dr ∈ drs, (dr.providers.map Prod.fst).Nodup) →
      (∀ dr ∈ drs, ∀ pr ∈ dr.providers,
        (pr.2.aggregatedScores.map Prod.fst).Nodup) →
        runVals drs p m =
          drs.filterMap
            (fun dr =>
              (alookup dr.providers p).bind
                (fun r =>
                  if r.status = "success" then
                    alookup r.aggregatedScores m
                  else none)) := by
  intro drs
  induction drs with
  | nil => intro _ _ _; rfl
  | cons dr rest ih =>
      intro hw hnd hnds
      rw [show runVals (dr :: rest) p m =
          docVals dr.winner p m ++ runVals rest p m from rfl]
      rw [hw dr (List.mem_cons_self _ _),
        docVals_aggregate p m dr.providers
          (hnd dr (List.mem_cons_self _ _)),
        ih (fun d hd => hw d (List.mem_cons_of_mem _ hd))
          (fun d hd => hnd d (List.mem_cons_of_mem _ hd))
          (fun d hd => hnds d (List.mem_cons_of_mem _ hd)),
        List.filterMap_cons]
      cases hp : alookup dr.providers p with
      | none => rfl
      | some r =>
          dsimp only
          rw [show ((some r).bind
              (fun r =>
                if r.status = "success" then
                  alookup r.aggregatedScores m
                else none)) =
              (if r.status = "success" then
                alookup r.aggregatedScores m
              else none) from rfl]
          by_cases hs : r.status = "success"
          · rw [if_pos hs, if_pos hs]
            have hmem : ((p, r) : String × ProviderResult) ∈
                dr.providers := alookup_mem dr.providers p r hp
            rw [scoreVals_nodup m r.aggregatedScores
                (hnds dr (List.mem_cons_self _ _) (p, r) hmem)]
            cases alookup r.aggregatedScores m with
            | none => rfl
            | some v => rfl
          · rw [if_neg hs, if_neg hs]
            rfl

/-- C6: the run summary's cross-document provider average is computed
by `_determine_overall_winner` over the document results, whose
provider_scores maps keep exactly the providers with a success result
(providers without a success are absent, not counted as zero); and for
every provider p and metric m the computed average is the plain
unweighted arithmetic mean of the per-document values of m over exactly
the documents where p produced a success result carrying m (with
document question counts and sizes playing no role).  In particular
0.6 and 0.8 average to 0.7 (see the witness). -/
theorem c6_cross_document_average :
    (∀ (w : World) (docs : List DocumentData)
        (questionsByDoc : Dict (List QuestionData))
        (providers : List String) (resumeEnabled : Bool)
        (store0 : Store) (out : RunOutcome),
      runBenchmark w docs questionsByDoc providers resumeEnabled
          store0 = .ok out →
        out.overallWinner = determineOverallWinner out.results ∧
          ∀ dr ∈ out.results,
            dr.winner = aggregateProviderScores dr.providers) ∧
      (∀ (drs : List DocumentResult) (p m : String),
        (∀ dr ∈ drs,
          dr.winner = aggregateProviderScores dr.providers) →
        (∀ dr ∈ drs, (dr.providers.map Prod.fst).Nodup) →
        (∀ dr ∈ drs, ∀ pr ∈ dr.providers,
          (pr.2.aggregatedScores.map Prod.fst).Nodup) →
        drs.filterMap
            (fun dr =>
              (alookup dr.providers p).bind
                (fun r =>
                  if r.status = "success" then
                    alookup r.aggregatedScores m
                  else none)) ≠ [] →
          dlookup2 (determineOverallWinner drs) p m =
            some
              (avgScores
                (drs.filterMap
                  (fun dr =>
                    (alookup dr.providers p).bind
                      (fun r =>
                        if r.status = "success" then
                          alookup r.aggregatedScores m
                        else none))))) := by
  constructor
  · intro w docs questionsByDoc providers resumeEnabled store0 out hrun
    unfold runBenchmark at hrun
    cases hc :
        createTaskCombinations docs questionsByDoc providers with
    | error msg =>
        rw [hc] at hrun
        cases hrun
    | ok tasks =>
        rw [hc] at hrun
        have hout :
            out =
              runScheduled w docs questionsByDoc resumeEnabled store0
                tasks := by
          injection hrun with h
          exact h.symm
        subst hout
        constructor
        · rfl
        · intro dr hdr
          have hmem :
              dr ∈
                buildDocResults questionsByDoc w.timestamp
                  (collectResults
                      (executeTasks w
                        (tasks.filter
                          (fun t =>
                            !(shouldSkipTask resumeEnabled store0
                                t.provider t.doc.docId))))
                      ([], store0)).1
                  docs := hdr
          obtain ⟨doc, hdoc, hbuild⟩ := List.mem_filterMap.mp hmem
          cases hl :
              alookup
                (collectResults
                    (executeTasks w
                      (tasks.filter
                        (fun t =>
                          !(shouldSkipTask resumeEnabled store0
                              t.provider t.doc.docId))))
                    ([], store0)).1
                doc.docId with
          | none =>
              rw [hl] at hbuild
              cases hbuild
          | some prs =>
              rw [hl] at hbuild
              injection hbuild with h
              rw [← h]
  · intro drs p m hw hnd hnds hne
    rw [← runVals_filterMap p m drs hw hnd hnds] at hne ⊢
    exact determineOverallWinner_lookup drs p m hne

/-- Witness for C6: with provX scoring m = 0.6 on docA and m = 0.8 on
docB, the cross-document average for (provX, m) is 0.7. -/
theorem c6_cross_document_average_witness :
    dlookup2 (determineOverallWinner [docResultA, docResultB]) "provX"
        "m" =
      some (.val (7 / 10)) := by
  have h :=
    c6_cross_document_average.2 [docResultA, docResultB] "provX" "m"
      (by
        intro dr hdr
        rcases List.mem_cons.mp hdr with rfl | hdr2
        · rfl
        · rcases List.mem_cons.mp hdr2 with rfl | hdr3
          · rfl
          · cases hdr3)
      (by decide) (by decide)
      (by
        rw [show ([docResultA, docResultB].filterMap
            (fun dr =>
              (alookup dr.providers "provX").bind
                (fun r =>
                  if r.status = "success" then
                    alookup r.aggregatedScores "m"
                  else none))) =
            [Score.val (6 / 10), Score.val (8 / 10)] from rfl]
        simp)
  rw [h]
  rw [show ([docResultA, docResultB].filterMap
      (fun dr =>
        (alookup dr.providers "provX").bind
          (fun r =>
            if r.status = "success" then
              alookup r.aggregatedScores "m"
            else none))) =
      [Score.val (6 / 10), Score.val (8 / 10)] from rfl]
  rw [show avgScores [Score.val (6 / 10), Score.val (8 / 10)] =
      Score.val (((0 : ℚ) + 6 / 10 + 8 / 10) / 2) from rfl]
  norm_num

end RAGRace

